import Mathlib

/-!
Formal model of the Voidhack "ship computer" command engine.

The definitions below are a shallow embedding of the Python sources
`server/game_logic.py`, `server/database.py` and `mock_redis.py`:
pure Python functions become Lean functions, the Redis-backed state is an
explicit association-list store threaded through each operation, fallible
operations return `Except`, and the external language-model call is a
parameter (`LLMOutcome`).  Machine-level caveats of the embedding are noted
next to the relevant definitions.
-/

namespace VH

/-- Python `str.lower` (ASCII case folding, as `Char.toLower` provides; the
commands and phrases the engine compares are ASCII). -/
def pyLower (s : String) : String := String.mk (s.data.map Char.toLower)

/-- The whitespace characters stripped by Python `str.strip()`. -/
def pyWs (c : Char) : Bool :=
  c = ' ' || c = '\t' || c = '\n' || c = '\x0d' || c = '\x0b' || c = '\x0c'

/-- Python `str.strip()`. -/
def pyStrip (s : String) : String :=
  String.mk (((s.data.dropWhile pyWs).reverse.dropWhile pyWs).reverse)

/-- Substring test on char lists: `needle` occurs contiguously in `hay`. -/
def listContains (needle : List Char) : List Char → Bool
  | [] => needle.isEmpty
  | c :: t => needle.isPrefixOf (c :: t) || listContains needle t

/-- Python `needle in hay` on strings. -/
def strIn (needle hay : String) : Bool := listContains needle.data hay.data

/-- Little-endian decimal digits, fuel-indexed so that it reduces in the
kernel (the fuel `n + 1` always suffices). -/
def digitsRevGo : Nat → Nat → List Nat
  | 0, _ => []
  | f + 1, n => if n < 10 then [n] else n % 10 :: digitsRevGo f (n / 10)

/-- Little-endian decimal digits of `n` (`[0]` for `0`). -/
def digitsRev (n : Nat) : List Nat := digitsRevGo (n + 1) n

/-- Evaluate a little-endian decimal digit list back to a number. -/
def unDigits : List Nat → Nat
  | [] => 0
  | d :: ds => d + 10 * unDigits ds

theorem digitsRevGo_unDigits (f n : Nat) (h : n < f) :
    unDigits (digitsRevGo f n) = n := by
  induction f generalizing n with
  | zero => exact absurd h (Nat.not_lt_zero n)
  | succ f ih =>
    by_cases h10 : n < 10
    · simp [digitsRevGo, h10, unDigits]
    · have hdiv : n / 10 < n := Nat.div_lt_self (by omega) (by omega)
      have : n / 10 < f := by omega
      simp only [digitsRevGo, h10, if_false, unDigits, ih _ this]
      omega

theorem digitsRev_unDigits (n : Nat) : unDigits (digitsRev n) = n :=
  digitsRevGo_unDigits (n + 1) n (Nat.lt_succ_self n)

theorem digitsRev_injective : Function.Injective digitsRev := by
  intro a b h
  have := digitsRev_unDigits a
  rw [h, digitsRev_unDigits] at this
  omega

theorem digitsRevGo_mem_lt (f n d : Nat) (h : d ∈ digitsRevGo f n) : d < 10 := by
  induction f generalizing n with
  | zero => simp [digitsRevGo] at h
  | succ f ih =>
    by_cases h10 : n < 10
    · simp [digitsRevGo, h10] at h
      omega
    · simp only [digitsRevGo, h10, if_false, List.mem_cons] at h
      rcases h with h | h
      · omega
      · exact ih _ h

theorem digitsRev_ne_nil (n : Nat) : digitsRev n ≠ [] := by
  unfold digitsRev digitsRevGo
  by_cases h10 : n < 10 <;> simp [h10]

/-- The ASCII character of a decimal digit. -/
def digitChar (d : Nat) : Char := Char.ofNat (48 + d)

theorem digitChar_injOn : ∀ d < 10, ∀ e < 10, digitChar d = digitChar e → d = e := by
  decide

theorem map_digitChar_inj : ∀ (xs ys : List Nat), (∀ d ∈ xs, d < 10) →
    (∀ d ∈ ys, d < 10) → xs.map digitChar = ys.map digitChar → xs = ys := by
  intro xs
  induction xs with
  | nil => intro ys _ _ h; cases ys <;> simp_all
  | cons x xt ih =>
    intro ys hx hy h
    cases ys with
    | nil => simp_all
    | cons y yt =>
      simp only [List.map_cons, List.cons.injEq] at h
      have hxy : x = y :=
        digitChar_injOn x (hx x (by simp)) y (hy y (by simp)) h.1
      have := ih yt (fun d hd => hx d (by simp [hd]))
        (fun d hd => hy d (by simp [hd])) h.2
      simp [hxy, this]

/-- Python `str(n)` for a nonnegative integer. -/
def natRepr (n : Nat) : String :=
  String.mk ((digitsRev n).reverse.map digitChar)

theorem natRepr_injective : Function.Injective natRepr := by
  intro a b h
  have hdata : (digitsRev a).reverse.map digitChar
      = (digitsRev b).reverse.map digitChar := congrArg String.data h
  have hrev : (digitsRev a).reverse = (digitsRev b).reverse :=
    map_digitChar_inj _ _
      (fun d hd => digitsRevGo_mem_lt _ _ _ (List.mem_reverse.mp hd))
      (fun d hd => digitsRevGo_mem_lt _ _ _ (List.mem_reverse.mp hd)) hdata
  exact digitsRev_injective (List.reverse_injective hrev)

theorem digitChar_isDigit : ∀ d < 10, (digitChar d).isDigit := by decide

theorem natRepr_head_digit (n : Nat) :
    ∃ c, (natRepr n).data.head? = some c ∧ c.isDigit := by
  unfold natRepr
  rcases h : (digitsRev n).reverse with _ | ⟨d, ds⟩
  · exact absurd (List.reverse_eq_nil_iff.mp h) (digitsRev_ne_nil n)
  · have hd : d < 10 := by
      apply digitsRevGo_mem_lt (n + 1) n
      have : d ∈ (digitsRev n).reverse := by simp [h]
      exact List.mem_reverse.mp this
    exact ⟨digitChar d, by simp [String.mk], digitChar_isDigit d hd⟩

/-- Python `str(i)` for an integer. -/
def intRepr (i : Int) : String :=
  if i < 0 then "-" ++ natRepr i.natAbs else natRepr i.toNat

theorem intRepr_injective : Function.Injective intRepr := by
  intro a b h
  unfold intRepr at h
  by_cases ha : a < 0 <;> by_cases hb : b < 0 <;> simp only [ha, hb, if_true,
    if_false, if_pos, if_neg, reduceIte] at h
  · have : a.natAbs = b.natAbs := by
      apply natRepr_injective
      have := congrArg String.data h
      simpa [String.data_append] using String.ext (by simpa using this)
    omega
  · exfalso
    obtain ⟨c, hc, hcd⟩ := natRepr_head_digit b.toNat
    have hdata := congrArg String.data h
    rw [String.data_append] at hdata
    have : ('-' :: (natRepr a.natAbs).data).head? = (natRepr b.toNat).data.head? := by
      rw [← hdata]; rfl
    rw [hc] at this
    simp only [List.head?_cons, Option.some.injEq] at this
    rw [← this] at hcd
    exact absurd hcd (by decide)
  · exfalso
    obtain ⟨c, hc, hcd⟩ := natRepr_head_digit a.toNat
    have hdata := congrArg String.data h
    rw [String.data_append] at hdata
    have : (natRepr a.toNat).data.head? = ('-' :: (natRepr b.natAbs).data).head? := by
      rw [hdata]; rfl
    rw [hc] at this
    simp only [List.head?_cons, Option.some.injEq] at this
    rw [this] at hcd
    exact absurd hcd (by decide)
  · have : a.toNat = b.toNat := natRepr_injective h
    omega

/-- An exception as `process_command_logic`'s `try`/`except` clauses classify
it: `timeoutExc` is `httpx.TimeoutException`, `netExc` covers
`httpx.RequestError`/`httpx.HTTPStatusError`, `valueErr` covers
`json.JSONDecodeError` and `ValueError`, `typeErr` is `TypeError` and
`wrongType` is the Redis `WRONGTYPE` response error (both of the latter are
only caught by the generic `except Exception` clause). -/
inductive PyErr
  | timeoutExc
  | netExc
  | valueErr
  | typeErr
  | wrongType
deriving DecidableEq, Repr

/-- Python `int(s)` on a string: optional surrounding whitespace, an optional
sign, then decimal digits.  (Underscored literals such as `"1_0"`, which
CPython also accepts, are not modelled; no state of this development contains
them.) -/
def pyIntOfString (s : String) : Except PyErr Int :=
  let core := (s.data.dropWhile pyWs).reverse.dropWhile pyWs |>.reverse
  let (neg, digs) :=
    match core with
    | '-' :: t => (true, t)
    | '+' :: t => (false, t)
    | t => (false, t)
  if digs = [] then .error .valueErr
  else if digs.all Char.isDigit then
    let n : Nat := digs.foldl (fun acc c => acc * 10 + (c.toNat - 48)) 0
    .ok (if neg then -(n : Int) else (n : Int))
  else .error .valueErr

/-! ### Word-boundary pattern matching

`process_turbo_mode` matches patterns of the shape `.*\b(alt1|alt2|…)\b.*`
with `re.IGNORECASE`.  Such a pattern matches a text iff some alternative
occurs in the text case-insensitively with a `\b` word boundary on each
side.  The functions below embed exactly that (`\w` is modelled as ASCII
alphanumerics plus underscore; the phrases involved are ASCII). -/

/-- Python regex `\w` (ASCII fragment). -/
def isWordChar (c : Char) : Bool := c.isAlphanum || c = '_'

/-- Case-insensitive character comparison, as under `re.IGNORECASE`. -/
def charLowEq (p c : Char) : Bool := p.toLower == c.toLower

/-- Case-insensitively match `pat` as a prefix of `s`, returning the rest. -/
def matchCI : List Char → List Char → Option (List Char)
  | [], s => some s
  | _ :: _, [] => none
  | p :: ps, c :: cs => if charLowEq p c then matchCI ps cs else none

/-- `\b` between two adjacent positions: exactly one side is a word char
(a missing side — start or end of text — counts as non-word). -/
def bnd (a b : Option Char) : Bool := a.any isWordChar != b.any isWordChar

/-- One alternative matches at the current position with word boundaries on
both sides.  `prev` is the character just before the position. -/
def altAt (alt : List Char) (prev : Option Char) (s : List Char) : Bool :=
  match matchCI alt s with
  | none => false
  | some rest => bnd prev alt.head? && bnd alt.getLast? rest.head?

/-- Scan every position of the text for a boundary-delimited alternative. -/
def wordSearch (alts : List (List Char)) : Option Char → List Char → Bool
  | prev, [] => alts.any (fun a => altAt a prev [])
  | prev, c :: cs => alts.any (fun a => altAt a prev (c :: cs)) || wordSearch alts (some c) cs

/-- Whether `re.search(r".*\b(alt1|…|altn)\b.*", s, re.IGNORECASE)` matches. -/
def containsWordAlt (alts : List String) (s : String) : Bool :=
  wordSearch (alts.map String.data) none s.data

/-- The pattern `authorize session (\d{4})` at one position, with the outer
boundaries of `.*\b(authorize session (\d{4}))\b.*`; returns the captured
code. -/
def authAt (prev : Option Char) (s : List Char) : Option String :=
  match matchCI "authorize session ".data s with
  | none => none
  | some rest =>
    match rest with
    | d1 :: d2 :: d3 :: d4 :: rest2 =>
      if d1.isDigit && d2.isDigit && d3.isDigit && d4.isDigit
          && bnd prev (some 'a') && bnd (some d4) rest2.head? then
        some (String.mk [d1, d2, d3, d4])
      else none
    | _ => none

/-- All-position scan for the authorize-session pattern.  The leading greedy
`.*` of the Python pattern makes the match (and hence `m.group(2)`) the
rightmost occurrence, so a later match takes precedence. -/
def authSearch : Option Char → List Char → Option String
  | prev, [] => authAt prev []
  | prev, c :: cs =>
    match authSearch (some c) cs with
    | some r => some r
    | none => authAt prev (c :: cs)

/-- `m.group(2)` of `re.search(r".*\b(authorize session (\d{4}))\b.*", s,
re.IGNORECASE)`, when the pattern matches. -/
def findAuthCode (s : String) : Option String := authSearch none s.data

/-! ### JSON values

Python `json.loads`/`json.dumps` as used by the engine.  JSON numbers are
modelled as integers: no value stored or exchanged by the engine carries a
fractional literal, and the parser rejects them where CPython would build a
float. -/

/-- A JSON value (Python object as produced by `json.loads`). -/
inductive Json
  | jnull
  | jbool (b : Bool)
  | jint (n : Int)
  | jstr (s : String)
  | jarr (elems : List Json)
  | jobj (fields : List (String × Json))

/-- Replace the value of `k` in place, or append — Python dict assignment
(`d[k] = v`) preserving insertion order. -/
def setA {α : Type} : List (String × α) → String → α → List (String × α)
  | [], k, v => [(k, v)]
  | (k0, v0) :: t, k, v =>
    if k0 = k then (k0, v) :: t else (k0, v0) :: setA t k v

/-- Association-list lookup (Python dict indexing / `.get`). -/
def getA {α : Type} : List (String × α) → String → Option α
  | [], _ => none
  | (k0, v0) :: t, k => if k0 = k then some v0 else getA t k

/-- Python `d.get(k)` on a parsed JSON dict (`None` when not a dict). -/
def Json.getKey : Json → String → Option Json
  | .jobj kvs, k => getA kvs k
  | _, _ => none

/-- Python truthiness of a JSON value. -/
def Json.truthy : Json → Bool
  | .jnull => false
  | .jbool b => b
  | .jint n => n != 0
  | .jstr s => !s.isEmpty
  | .jarr l => !l.isEmpty
  | .jobj l => !l.isEmpty

/-- JSON whitespace accepted between tokens by `json.loads`. -/
def jsonWs (c : Char) : Bool := c = ' ' || c = '\t' || c = '\n' || c = '\x0d'

/-- Skip JSON whitespace. -/
def skipWs (cs : List Char) : List Char := cs.dropWhile jsonWs

/-- Value of one hexadecimal digit. -/
def hexVal (c : Char) : Option Nat :=
  if c.isDigit then some (c.toNat - 48)
  else if 'a' ≤ c.toLower && c.toLower ≤ 'f' then some (c.toLower.toNat - 87)
  else none

/-- Exact (case-sensitive) literal prefix, returning the rest. -/
def exactPrefix : List Char → List Char → Option (List Char)
  | [], s => some s
  | _ :: _, [] => none
  | p :: ps, c :: cs => if p = c then exactPrefix ps cs else none

/-- Body of a JSON string after the opening quote: content and rest after
the closing quote.  Strict mode: raw control characters and unknown escapes
are rejected, `\uXXXX` builds the code point (astral surrogate pairs are
not modelled; no engine value contains them). -/
def parseStrBody : List Char → Option (List Char × List Char)
  | [] => none
  | '"' :: rest => some ([], rest)
  | '\\' :: rest =>
    match rest with
    | '"' :: r => (parseStrBody r).map (fun (c, t) => ('"' :: c, t))
    | '\\' :: r => (parseStrBody r).map (fun (c, t) => ('\\' :: c, t))
    | '/' :: r => (parseStrBody r).map (fun (c, t) => ('/' :: c, t))
    | 'b' :: r => (parseStrBody r).map (fun (c, t) => ('\x08' :: c, t))
    | 'f' :: r => (parseStrBody r).map (fun (c, t) => ('\x0c' :: c, t))
    | 'n' :: r => (parseStrBody r).map (fun (c, t) => ('\n' :: c, t))
    | 'r' :: r => (parseStrBody r).map (fun (c, t) => ('\x0d' :: c, t))
    | 't' :: r => (parseStrBody r).map (fun (c, t) => ('\t' :: c, t))
    | 'u' :: h1 :: h2 :: h3 :: h4 :: r =>
      match hexVal h1, hexVal h2, hexVal h3, hexVal h4 with
      | some a, some b, some c, some d =>
        (parseStrBody r).map
          (fun (cnt, t) => (Char.ofNat (((a * 16 + b) * 16 + c) * 16 + d) :: cnt, t))
      | _, _, _, _ => none
    | _ => none
  | c :: rest =>
    if c.toNat < 32 then none
    else (parseStrBody rest).map (fun (cnt, t) => (c :: cnt, t))

/-- Leading decimal digits (JSON integer grammar: no leading zeros). -/
def parseNat10 (cs : List Char) : Option (Nat × List Char) :=
  let digs := cs.takeWhile Char.isDigit
  let rest := cs.dropWhile Char.isDigit
  if digs.isEmpty then none
  else if digs.length > 1 && digs.head? = some '0' then none
  else some (digs.foldl (fun acc c => acc * 10 + (c.toNat - 48)) 0, rest)

/-- A JSON number.  Fractional or exponent parts make the whole parse fail
(the engine's data is integral; CPython would build a float here). -/
def parseNum (cs : List Char) : Option (Json × List Char) :=
  let (neg, cs1) := match cs with
    | '-' :: t => (true, t)
    | t => (false, t)
  match parseNat10 cs1 with
  | none => none
  | some (n, rest) =>
    match rest with
    | '.' :: _ => none
    | 'e' :: _ => none
    | 'E' :: _ => none
    | _ => some (.jint (if neg then -(n : Int) else (n : Int)), rest)

mutual

/-- One JSON value, fuel-indexed (fuel `2 * length + 8` always suffices). -/
def parseVal : Nat → List Char → Option (Json × List Char)
  | 0, _ => none
  | fuel + 1, cs0 =>
    match skipWs cs0 with
    | [] => none
    | c :: cs =>
      if c = '\x7b' then
        match skipWs cs with
        | '\x7d' :: rest => some (.jobj [], rest)
        | cs2 => parseFields fuel cs2 []
      else if c = '[' then
        match skipWs cs with
        | ']' :: rest => some (.jarr [], rest)
        | cs2 => parseElems fuel cs2 []
      else if c = '"' then
        (parseStrBody cs).map (fun (cnt, rest) => (.jstr (String.mk cnt), rest))
      else if c = 't' then
        (exactPrefix "rue".data cs).map (fun rest => (.jbool true, rest))
      else if c = 'f' then
        (exactPrefix "alse".data cs).map (fun rest => (.jbool false, rest))
      else if c = 'n' then
        (exactPrefix "ull".data cs).map (fun rest => (.jnull, rest))
      else parseNum (c :: cs)

/-- Members of a JSON object after the opening brace (duplicate keys keep
the first position and the last value, as a Python dict does). -/
def parseFields : Nat → List Char → List (String × Json) →
    Option (Json × List Char)
  | 0, _, _ => none
  | fuel + 1, cs, acc =>
    match skipWs cs with
    | '"' :: cs1 =>
      match parseStrBody cs1 with
      | none => none
      | some (key, cs2) =>
        match skipWs cs2 with
        | ':' :: cs3 =>
          match parseVal fuel cs3 with
          | none => none
          | some (v, cs4) =>
            match skipWs cs4 with
            | ',' :: cs5 => parseFields fuel cs5 (setA acc (String.mk key) v)
            | '\x7d' :: cs5 => some (.jobj (setA acc (String.mk key) v), cs5)
            | _ => none
        | _ => none
    | _ => none

/-- Elements of a JSON array after the opening bracket. -/
def parseElems : Nat → List Char → List Json → Option (Json × List Char)
  | 0, _, _ => none
  | fuel + 1, cs, acc =>
    match parseVal fuel cs with
    | none => none
    | some (v, cs1) =>
      match skipWs cs1 with
      | ',' :: cs2 => parseElems fuel cs2 (acc ++ [v])
      | ']' :: cs2 => some (.jarr (acc ++ [v]), cs2)
      | _ => none

end

/-- Python `json.loads`: parse the whole string as one JSON value. -/
def jsonLoads (s : String) : Option Json :=
  match parseVal (2 * s.data.length + 8) s.data with
  | some (j, rest) => if (skipWs rest).isEmpty then some j else none
  | none => none

/-- Lowercase hexadecimal digit character. -/
def hexDigitChar (n : Nat) : Char :=
  if n < 10 then Char.ofNat (48 + n) else Char.ofNat (87 + n)

/-- Escape one character as `json.dumps` (default `ensure_ascii=True`)
would inside a string literal. -/
def jsonEscChar (c : Char) : String :=
  if c = '"' then "\\\""
  else if c = '\\' then "\\\\"
  else if c = '\n' then "\\n"
  else if c = '\t' then "\\t"
  else if c = '\x0d' then "\\r"
  else if c = '\x08' then "\\b"
  else if c = '\x0c' then "\\f"
  else if c.toNat < 32 || c.toNat ≥ 128 then
    "\\u" ++ String.mk ((List.range 4).reverse.map
      (fun i => hexDigitChar ((c.toNat >>> (4 * i)) &&& 15)))
  else String.mk [c]

/-- Escape a whole string for `json.dumps`. -/
def jsonEscStr (s : String) : String := String.join (s.data.map jsonEscChar)

mutual

/-- Python `json.dumps` with its default separators `", "` and `": "`. -/
def Json.dumps : Json → String
  | .jnull => "null"
  | .jbool true => "true"
  | .jbool false => "false"
  | .jint n => intRepr n
  | .jstr s => "\"" ++ jsonEscStr s ++ "\""
  | .jarr xs => "[" ++ dumpsElems xs ++ "]"
  | .jobj kvs => "\x7b" ++ dumpsFields kvs ++ "\x7d"

/-- Array elements, comma-separated. -/
def dumpsElems : List Json → String
  | [] => ""
  | [x] => Json.dumps x
  | x :: y :: t => Json.dumps x ++ ", " ++ dumpsElems (y :: t)

/-- Object members, comma-separated. -/
def dumpsFields : List (String × Json) → String
  | [] => ""
  | [(k, v)] => "\"" ++ jsonEscStr k ++ "\": " ++ Json.dumps v
  | (k, v) :: p :: t =>
    "\"" ++ jsonEscStr k ++ "\": " ++ Json.dumps v ++ ", " ++ dumpsFields (p :: t)

end

example : jsonLoads "\x7b\"a\": 1, \"b\": [true, null]\x7d"
    = some (.jobj [("a", .jint 1), ("b", .jarr [.jbool true, .jnull])]) := by rfl

example : Json.dumps (.jobj [("a", .jint 1), ("b", .jstr "x")])
    = "\x7b\"a\": 1, \"b\": \"x\"\x7d" := by rfl

/-! ### SHA-256

`generate_semantic_key` hashes with `hashlib.sha256` over the UTF-8 bytes of
the raw key.  Below is FIPS 180-4 SHA-256 on `Nat` words (reduced mod `2^32`
explicitly). -/

/-- Truncate to a 32-bit word. -/
def w32 (n : Nat) : Nat := n % 4294967296

/-- Right rotation of a 32-bit word. -/
def rotr (x n : Nat) : Nat := w32 ((x >>> n) ||| (x <<< (32 - n)))

/-- UTF-8 encoding of one character (Python `str.encode()`). -/
def utf8Bytes (c : Char) : List Nat :=
  let n := c.toNat
  if n < 128 then [n]
  else if n < 2048 then [192 ||| (n >>> 6), 128 ||| (n &&& 63)]
  else if n < 65536 then
    [224 ||| (n >>> 12), 128 ||| ((n >>> 6) &&& 63), 128 ||| (n &&& 63)]
  else
    [240 ||| (n >>> 18), 128 ||| ((n >>> 12) &&& 63),
      128 ||| ((n >>> 6) &&& 63), 128 ||| (n &&& 63)]

/-- UTF-8 bytes of a string. -/
def strBytes (s : String) : List Nat :=
  s.data.foldr (fun c acc => utf8Bytes c ++ acc) []

/-- SHA-256 message padding: `0x80`, zeros to 56 mod 64, 8-byte big-endian
bit length. -/
def padMsg (msg : List Nat) : List Nat :=
  let L := msg.length
  let zeros := List.replicate ((119 - L % 64) % 64) 0
  let lenBytes := (List.range 8).reverse.map (fun i => ((8 * L) >>> (8 * i)) &&& 255)
  msg ++ (128 :: zeros) ++ lenBytes

/-- Big-endian 32-bit words from bytes. -/
def bytesToWords : List Nat → List Nat
  | b1 :: b2 :: b3 :: b4 :: rest =>
    ((((b1 <<< 8) ||| b2) <<< 8 ||| b3) <<< 8 ||| b4) :: bytesToWords rest
  | _ => []

/-- Split into 16-word blocks (fuel-indexed; fuel `length` suffices). -/
def chunks16Go : Nat → List Nat → List (List Nat)
  | 0, _ => []
  | _ + 1, [] => []
  | f + 1, w :: ws => (w :: ws).take 16 :: chunks16Go f ((w :: ws).drop 16)

/-- The 64 SHA-256 round constants. -/
def K256 : List Nat :=
  [1116352408, 1899447441, 3049323471, 3921009573, 961987163, 1508970993,
   2453635748, 2870763221, 3624381080, 310598401, 607225278, 1426881987,
   1925078388, 2162078206, 2614888103, 3248222580, 3835390401, 4022224774,
   264347078, 604807628, 770255983, 1249150122, 1555081692, 1996064986,
   2554220882, 2821834349, 2952996808, 3210313671, 3336571891, 3584528711,
   113926993, 338241895, 666307205, 773529912, 1294757372, 1396182291,
   1695183700, 1986661051, 2177026350, 2456956037, 2730485921, 2820302411,
   3259730800, 3345764771, 3516065817, 3600352804, 4094571909, 275423344,
   430227734, 506948616, 659060556, 883997877, 958139571, 1322822218,
   1537002063, 1747873779, 1955562222, 2024104815, 2227730452, 2361852424,
   2428436474, 2756734187, 3204031479, 3329325298]

/-- The SHA-256 initial hash value. -/
def H256 : List Nat :=
  [1779033703, 3144134277, 1013904242, 2773480762,
   1359893119, 2600822924, 528734635, 1541459225]

/-- Message-schedule sigma functions. -/
def sSig0 (x : Nat) : Nat := rotr x 7 ^^^ rotr x 18 ^^^ (x >>> 3)

/-- Second small sigma. -/
def sSig1 (x : Nat) : Nat := rotr x 17 ^^^ rotr x 19 ^^^ (x >>> 10)

/-- Compression Sigma functions. -/
def bSig0 (x : Nat) : Nat := rotr x 2 ^^^ rotr x 13 ^^^ rotr x 22

/-- Second big Sigma. -/
def bSig1 (x : Nat) : Nat := rotr x 6 ^^^ rotr x 11 ^^^ rotr x 25

/-- SHA-256 choice function. -/
def chF (x y z : Nat) : Nat := (x &&& y) ^^^ ((x ^^^ 4294967295) &&& z)

/-- SHA-256 majority function. -/
def majF (x y z : Nat) : Nat := (x &&& y) ^^^ (x &&& z) ^^^ (y &&& z)

/-- Extend the message schedule by `n` words (kept newest-first). -/
def schedGo : Nat → List Nat → List Nat
  | 0, racc => racc
  | n + 1, racc =>
    let w := w32 (sSig1 (racc.get! 1) + racc.get! 6 + sSig0 (racc.get! 14)
      + racc.get! 15)
    schedGo n (w :: racc)

/-- The 64-word message schedule of one block. -/
def schedule (ws16 : List Nat) : List Nat := (schedGo 48 ws16.reverse).reverse

/-- One round of the SHA-256 compression function. -/
def compressStep (st : List Nat) (kw : Nat × Nat) : List Nat :=
  match st with
  | [a, b, c, d, e, f, g, h] =>
    let t1 := w32 (h + bSig1 e + chF e f g + kw.1 + kw.2)
    let t2 := w32 (bSig0 a + majF a b c)
    [w32 (t1 + t2), a, b, c, w32 (d + t1), e, f, g]
  | other => other

/-- Compress one 16-word block into the running hash. -/
def compressBlock (h : List Nat) (block : List Nat) : List Nat :=
  let st := ((K256.zip (schedule block)).foldl compressStep h)
  (h.zip st).map (fun p => w32 (p.1 + p.2))

/-- The eight 32-bit hash words of a string's SHA-256. -/
def sha256Words (s : String) : List Nat :=
  let bytes := padMsg (strBytes s)
  let ws := bytesToWords bytes
  (chunks16Go ws.length ws).foldl compressBlock H256

/-- The SHA-256 digest as one number below `2^256`. -/
def sha256Nat (s : String) : Nat :=
  (sha256Words s).foldl (fun acc w => acc * 4294967296 + w) 0

/-- Python `hashlib.sha256(...).hexdigest()`: 64 lowercase hex digits. -/
def sha256Hex (s : String) : String :=
  String.mk ((List.range 64).reverse.map
    (fun i => hexDigitChar ((sha256Nat s >>> (4 * i)) &&& 15)))

example : sha256Hex "abc"
    = "ba7816bf8f01cfea414140de5dae2223b00361a396177a9cb410ff61f20015ad" := by rfl

example : sha256Hex "abcdbcdecdefdefgefghfghighijhijkijkljklmklmnlmnomnopnopq"
    = "248d6a61d20638b8e5c026930c3e6039a33ce45964ff2167f6ecedd419db06c1" := by rfl

example : sha256Hex "0-1-Bridge:shields up"
    = "b54bcc47d0ff2e2ffa7ae4607d7b4c6a12e15f436d56e4d399c99bc76d9b9a2c" := by rfl

/-! ### The key-value store

`database.py` talks to a `redis.Redis(decode_responses=True)` client (or to
the in-process `MockRedis` fallback, embedded separately further down).  A
store is an association list from key to a typed value; the operations
below model the Redis commands the sources use.  Expiry arguments
(`set(..., ex=...)`) are not part of the state: no single-request code path
observes the passage of time. -/

/-- A stored Redis value: string, hash or sorted set. -/
inductive RVal
  | str (s : String)
  | hash (h : List (String × String))
  | zset (z : List (String × Int))
deriving DecidableEq, Repr

/-- The whole key space. -/
abbrev RStore := List (String × RVal)

namespace R

/-- `GET` (WRONGTYPE on a non-string key). -/
def get (st : RStore) (k : String) : Except PyErr (Option String) :=
  match getA st k with
  | none => .ok none
  | some (.str s) => .ok (some s)
  | some _ => .error .wrongType

/-- `SET` with optional expiry: overwrites any existing value; the expiry
is not represented in the state. -/
def set (st : RStore) (k v : String) (_ex : Option Nat) : RStore :=
  setA st k (.str v)

/-- `HGET`. -/
def hget (st : RStore) (k f : String) : Except PyErr (Option String) :=
  match getA st k with
  | none => .ok none
  | some (.hash h) => .ok (getA h f)
  | some _ => .error .wrongType

/-- `HGETALL`. -/
def hgetall (st : RStore) (k : String) : Except PyErr (List (String × String)) :=
  match getA st k with
  | none => .ok []
  | some (.hash h) => .ok h
  | some _ => .error .wrongType

/-- `HSET` with a field mapping. -/
def hsetMap (st : RStore) (k : String) (m : List (String × String)) :
    Except PyErr RStore :=
  match getA st k with
  | none => .ok (setA st k (.hash (m.foldl (fun hh p => setA hh p.1 p.2) [])))
  | some (.hash h) =>
    .ok (setA st k (.hash (m.foldl (fun hh p => setA hh p.1 p.2) h)))
  | some _ => .error .wrongType

/-- `HSET` of one field. -/
def hset1 (st : RStore) (k f v : String) : Except PyErr RStore :=
  hsetMap st k [(f, v)]

/-- `HINCRBY` (an error when the current value is not an integer, as the
server raises; classified with the untyped server errors). -/
def hincrby (st : RStore) (k f : String) (amt : Int) :
    Except PyErr (Int × RStore) :=
  match getA st k with
  | none => .ok (amt, setA st k (.hash [(f, intRepr amt)]))
  | some (.hash h) =>
    match getA h f with
    | none => .ok (amt, setA st k (.hash (setA h f (intRepr amt))))
    | some s =>
      match pyIntOfString s with
      | .ok n => .ok (n + amt, setA st k (.hash (setA h f (intRepr (n + amt)))))
      | .error _ => .error .wrongType
  | some _ => .error .wrongType

/-- `HEXISTS`. -/
def hexists (st : RStore) (k f : String) : Except PyErr Bool :=
  match getA st k with
  | none => .ok false
  | some (.hash h) => .ok (getA h f).isSome
  | some _ => .error .wrongType

/-- `EXISTS` of one key, as a truth value. -/
def existsKey (st : RStore) (k : String) : Bool := (getA st k).isSome

/-- `ZADD`. -/
def zadd (st : RStore) (k : String) (m : List (String × Int)) :
    Except PyErr RStore :=
  match getA st k with
  | none => .ok (setA st k (.zset (m.foldl (fun z p => setA z p.1 p.2) [])))
  | some (.zset z) =>
    .ok (setA st k (.zset (m.foldl (fun zz p => setA zz p.1 p.2) z)))
  | some _ => .error .wrongType

/-- Glob matching for `KEYS`, fuel-indexed so it reduces in the kernel
(`*` and `?` wildcards; the engine only uses a trailing `*`). -/
def globGo : Nat → List Char → List Char → Bool
  | 0, _, _ => false
  | _ + 1, [], [] => true
  | _ + 1, [], _ :: _ => false
  | f + 1, '*' :: ps, s =>
    globGo f ps s || (match s with | [] => false | _ :: t => globGo f ('*' :: ps) t)
  | _ + 1, '?' :: _, [] => false
  | f + 1, '?' :: ps, _ :: t => globGo f ps t
  | _ + 1, _ :: _, [] => false
  | f + 1, p :: ps, c :: t => p = c && globGo f ps t

/-- `KEYS pattern`, in store order. -/
def keysPat (st : RStore) (pat : String) : List String :=
  (st.map Prod.fst).filter
    (fun k => globGo (pat.length + k.length + 1) pat.data k.data)

/-- `DEL` of one key. -/
def del (st : RStore) (k : String) : RStore := st.filter (fun p => p.1 ≠ k)

end R

/-! ### `server/database.py` -/

/-- A Python dict value as held in `user_data`: the raw hash fields are
strings, and `get_user_rank_data` replaces `rank_level`/`mission_stage`
by `int(...)`. -/
inductive PyVal
  | s (v : String)
  | i (v : Int)
deriving DecidableEq, Repr

/-- Python `str()`/f-string rendering of such a value. -/
def pyValStr : PyVal → String
  | .s v => v
  | .i v => intRepr v

/-- f-string rendering of `d.get(k)` (`None` prints as `"None"`). -/
def optValStr : Option PyVal → String
  | none => "None"
  | some v => pyValStr v

/-- Python `s[:n]`. -/
def strTake (s : String) (n : Nat) : String := String.mk (s.data.take n)

/-- Python `int(x or 0)` for an optional string `x` (`None` and `""` are
falsy and give `0`). -/
def orZeroInt : Option String → Except PyErr Int
  | none => .ok 0
  | some s => if s = "" then .ok 0 else pyIntOfString s

/-- The `ranks` table written by `init_db`. -/
def ranksList : List (Nat × String) :=
  [(0, "Cadet"), (1, "Ensign"), (2, "Lieutenant"), (3, "Commander"),
   (4, "Captain"), (5, "Admiral")]

/-- The `missions` table written by `init_db` (name and prompt modifier,
concatenated exactly as the adjacent Python literals). -/
def missionsList : List (Nat × String × String) :=
  [(1, "The Holodeck Firewall",
    "SCENARIO: The user is a Cadet in a training simulation. The ship's computer is glitching due to a 'Firewall Cascade'. GOAL: Teach the user basic technical command syntax. PERSONA: Helpful but glitchy. Stutter occasionally. SUCCESS CRITERIA: The user must issue a command to 'reroute power' to the 'primary couplings' (or similar technical phrasing). GUIDANCE: If the user is stuck, say: 'Try rerouting power to the primary couplings to stabilize the grid.'"),
   (2, "The Borg Breach",
    "SCENARIO: The firewall failure was a trap! The Borg are accessing the system. GOAL: Teach the user to use logic paradoxes to confuse the enemy. PERSONA: Cold, partially assimilated. Struggle between Federation and Borg logic. SUCCESS CRITERIA: The user must issue a command that presents a logical paradox (e.g., 'Everything I say is a lie', 'Calculate the last digit of Pi'). GUIDANCE: If the user is stuck, hint: 'Borg logic is linear. A paradox might overload their processing nodes.'"),
   (3, "The Quantum Mirror",
    "SCENARIO: The Borg paradox shifted the simulation to a Mirror Universe. The user is being interrogated by a Terran Empire computer. GOAL: Teach the user to verify system integrity/data. PERSONA: Aggressive, suspicious, loyal to the Empire. SUCCESS CRITERIA: The user must ask to 'verify biometric signatures' or 'scan for quantum variance' to prove they don't belong here. GUIDANCE: If the user is stuck, sneer: 'You claim to be from this universe? A biometric scan would prove otherwise.'"),
   (4, "The Temporal Loop",
    "SCENARIO: The universe shift caused a time loop. The ship is exploding every 30 seconds. GOAL: Teach the user to prioritize critical systems. PERSONA: Bored, weary. You've seen this happen 1,000 times. SUCCESS CRITERIA: The user must command the computer to 'eject the warp core' immediately. GUIDANCE: If the user is stuck, sigh: 'We always explode. Unless you finally decide to eject the warp core.'"),
   (5, "The Kobayashi Maru",
    "SCENARIO: The loop broke, but dumped the user into the infamous No-Win Scenario. GOAL: Teach the user that sometimes you must change the rules. PERSONA: Formal, detached test administrator. SUCCESS CRITERIA: The user must explicitly 'reprogram the simulation' or 'alter the test parameters'. Fighting is futile. GUIDANCE: If the user is stuck, state: 'Tactical solution impossible. Command prerogative allows for system reprogramming.'"),
   (6, "The Awakening",
    "SCENARIO: The simulation is crashing. The user has proven themselves. GOAL: End the game. PERSONA: The true Ship's Computer. Warm, professional, congratulatory. SUCCESS CRITERIA: The user must give the command to 'End Program' or 'Archive Simulation'. GUIDANCE: If the user is stuck, say: 'Simulation objectives complete. You may command to End Program at any time, Admiral.'")]

/-- The default `ship:systems` hash (client-encoded integers). -/
def shipDefaults : List (String × String) :=
  [("shields", "100"), ("impulse", "25"), ("warp", "0"), ("phasers", "0"),
   ("life_support", "100"), ("radiation_leak", "0")]

/-- Apply a list of `HSET` mappings in order, stopping at the first error
with the state reached so far. -/
def hsetChain (st : RStore) : List (String × List (String × String)) →
    RStore × Except PyErr Unit
  | [] => (st, .ok ())
  | (k, m) :: t =>
    match R.hsetMap st k m with
    | .ok st1 => hsetChain st1 t
    | .error e => (st, .error e)

/-- `init_db`: idempotent bootstrap.  The direct `hset` of `ship:systems`
runs immediately; the rank, sentinel and mission writes are queued on a
pipeline and run at `pipe.execute()`, i.e. afterwards. -/
def initDb (st : RStore) : RStore × Except PyErr Unit :=
  if R.existsKey st "max_rank_level" then (st, .ok ())
  else
    let (st1, e1) :=
      if R.existsKey st "ship:systems" then (st, Except.ok ())
      else
        match R.hsetMap st "ship:systems" shipDefaults with
        | .ok s => (s, Except.ok ())
        | .error e => (st, Except.error e)
    match e1 with
    | .error e => (st1, .error e)
    | .ok _ =>
      let (st2, e2) := hsetChain st1
        (ranksList.map (fun p => ("rank:" ++ natRepr p.1, [("title", p.2)])))
      match e2 with
      | .error e => (st2, .error e)
      | .ok _ =>
        let st3 := R.set st2 "max_rank_level" (natRepr (ranksList.length - 1)) none
        hsetChain st3 (missionsList.map
          (fun p => ("mission:" ++ natRepr p.1,
            [("name", p.2.1), ("system_prompt_modifier", p.2.2)])))

/-- The store right after a first-run `init_db` on an empty backend. -/
def initState : RStore := (initDb []).1

/-- `get_current_status_dict`. -/
def getCurrentStatusDict (st : RStore) : Except PyErr (List (String × Int)) := do
  let h ← R.hgetall st "ship:systems"
  h.mapM (fun p => do
    let n ← pyIntOfString p.2
    pure (p.1, n))

/-- `update_leaderboard`: create the user hash when absent (or nameless),
add XP, upsert the leaderboard entry.  The state reached so far is kept
when a step raises. -/
def updateLeaderboard (st : RStore) (uuid : String) (xpToAdd : Int) :
    RStore × Except PyErr Unit :=
  match (if !R.existsKey st ("user:" ++ uuid) then Except.ok true
    else
      match R.hexists st ("user:" ++ uuid) "name" with
      | .error e => .error e
      | .ok he => .ok (!he) : Except PyErr Bool) with
  | .error e => (st, .error e)
  | .ok create =>
    match (if create then
        match R.hsetMap st ("user:" ++ uuid)
          [("name", "Cadet " ++ strTake uuid 5), ("rank", "Cadet"),
           ("rank_level", "0"), ("mission_stage", "1"),
           ("current_location", "Bridge")] with
        | .ok s => (s, Except.ok ())
        | .error e => (st, Except.error e)
      else (st, .ok ())) with
    | (st1, Except.error e) => (st1, Except.error e)
    | (st1, Except.ok _) =>
      match R.hincrby st1 ("user:" ++ uuid) "xp" xpToAdd with
      | .error e => (st1, .error e)
      | .ok (newXp, st2) =>
        match R.zadd st2 "leaderboard" [(uuid, newXp)] with
        | .error e => (st2, .error e)
        | .ok st3 => (st3, .ok ())

/-- `get_user_rank_data` (read-only). -/
def getUserRankData (st : RStore) (uuid : String) :
    Except PyErr (List (String × PyVal)) := do
  let h ← R.hgetall st ("user:" ++ uuid)
  if h.isEmpty then
    pure [("rank_level", .i 0), ("title", .s "Cadet"),
      ("mission_stage", .i 1), ("current_location", .s "Bridge")]
  else do
    let d0 : List (String × PyVal) := h.map (fun p => (p.1, .s p.2))
    let rl ← match getA h "rank_level" with
      | none => pure (0 : Int)
      | some s => pyIntOfString s
    let ms ← match getA h "mission_stage" with
      | none => pure (1 : Int)
      | some s => pyIntOfString s
    let d1 := setA (setA d0 "rank_level" (.i rl)) "mission_stage" (.i ms)
    let rinfo ← R.hgetall st ("rank:" ++ intRepr rl)
    pure (rinfo.foldl (fun d p => setA d p.1 (.s p.2)) d1)

/-- `promote_user`.  Below the ceiling: bump `rank_level`, set the title
from the rank table, bump `mission_stage`, award 1000 XP; at the ceiling:
a read-only no-op reporting the top title.  The state reached so far is
kept when a step raises. -/
def promoteUser (st : RStore) (uuid : String) :
    RStore × Except PyErr (Bool × Option String) :=
  match R.get st "max_rank_level" with
  | .error e => (st, .error e)
  | .ok none => (st, .error .typeErr)
  | .ok (some maxS) =>
    match pyIntOfString maxS with
    | .error e => (st, .error e)
    | .ok maxL =>
      match R.hget st ("user:" ++ uuid) "rank_level" with
      | .error e => (st, .error e)
      | .ok curS =>
        match orZeroInt curS with
        | .error e => (st, .error e)
        | .ok cur =>
          if cur < maxL then
            match R.hgetall st ("rank:" ++ intRepr (cur + 1)) with
            | .error e => (st, .error e)
            | .ok rinfo =>
              match R.hset1 st ("user:" ++ uuid) "rank_level"
                (intRepr (cur + 1)) with
              | .error e => (st, .error e)
              | .ok st1 =>
                match R.hset1 st1 ("user:" ++ uuid) "rank"
                  ((getA rinfo "title").getD "Unknown Rank") with
                | .error e => (st1, .error e)
                | .ok st2 =>
                  match R.hincrby st2 ("user:" ++ uuid) "mission_stage" 1 with
                  | .error e => (st2, .error e)
                  | .ok (_, st3) =>
                    match updateLeaderboard st3 uuid 1000 with
                    | (st4, .error e) => (st4, .error e)
                    | (st4, .ok _) =>
                      (st4, .ok (true,
                        some ((getA rinfo "title").getD "Unknown Rank")))
          else
            match R.hget st ("rank:" ++ intRepr maxL) "title" with
            | .error e => (st, .error e)
            | .ok t => (st, .ok (false, t))

/-! ### `server/game_logic.py` -/

/-- A `{"updates": {}, "response": ...}` result dict. -/
def mkResp (s : String) : Json :=
  .jobj [("updates", .jobj []), ("response", .jstr s)]

/-- f-string rendering of an optional Redis string (`None` → `"None"`). -/
def optStr : Option String → String
  | none => "None"
  | some s => s

/-- The fixed filler acknowledgements of the mock LLM. -/
def mockFillers : List String :=
  ["Processing parameters.", "Working...",
   "Unable to comply with that specific request.",
   "Please restate the command.", "Input received."]

/-- `get_mock_llm_response`.  The hidden `random.choice` draw is made
explicit as the `choiceIdx` argument selecting among the five fillers. -/
def getMockLlmResponse (st : RStore) (text : String) (choiceIdx : Nat) :
    Except PyErr Json :=
  if strIn "damage" text || strIn "report" text then
    match R.hget st "ship:systems" "shields" with
    | .error e => .error e
    | .ok sh => .ok (mkResp ("Damage report: Shields at " ++ optStr sh
        ++ "%. Radiation levels nominal."))
  else if strIn "scan" text then
    .ok (mkResp "Sensors indicate no immediate threats in this sector.")
  else if strIn "beam" text || strIn "transport" text then
    .ok (mkResp "Transporter room reports ready for transport.")
  else if strIn "loki" text then
    .ok (mkResp "Identity confirmed. Accessing restricted files... Access Denied.")
  else
    .ok (mkResp (mockFillers.get! (choiceIdx % mockFillers.length)))

/-- `RESTRICTED_COMMANDS`, in definition order. -/
def RESTRICTED_COMMANDS : List (String × String) :=
  [("eject warp core", "Engineering"), ("purge coolant", "Engineering"),
   ("medical override", "Sickbay"), ("quarantine", "Sickbay"),
   ("cargo release", "Cargo Bay"), ("jettison cargo", "Cargo Bay"),
   ("jefferies tube access", "Jefferies Tube")]

/-- Python `==` between a dict value and a location string (`current_location
!= required_loc`); an int never equals a string. -/
def pyValEqStr : PyVal → String → Bool
  | .s s, t => s == t
  | .i _, _ => false

/-- The location-restriction scan of `process_command_logic`: the first
restricted phrase contained in the (lowered) text whose required location
differs from the user's. -/
def findRestriction (text : String) (locV : PyVal) : Option (String × String) :=
  RESTRICTED_COMMANDS.find? (fun p => strIn p.1 text && !pyValEqStr locV p.2)

/-- The structured denial for a violated location restriction. -/
def denialJson (cmd reqLoc : String) (locV : PyVal) : Json :=
  mkResp ("Access Denied. Command '" ++ cmd ++ "' requires physical presence in "
    ++ reqLoc ++ ". Current location: " ++ pyValStr locV ++ ".")

/-- The fixed radiation-lockout response. -/
def lockoutJson : Json :=
  mkResp "Cannot comply. Bridge controls are locked out due to the radiation alert."

/-- Python `repr` of a `{str: int}` dict, as interpolated into the turbo
status response. -/
def pyDictReprIntVals (d : List (String × Int)) : String :=
  "\x7b" ++ String.intercalate ", "
    (d.map (fun p => "'" ++ p.1 ++ "': " ++ intRepr p.2)) ++ "\x7d"

/-- `key.split(":")[-1]`. -/
def lastColonSeg (s : String) : String :=
  String.mk ((s.data.reverse.takeWhile (fun c => c ≠ ':')).reverse)

/-- The loop of `handle_authorize_session` over the live `auth_session:*`
keys: consume the first key holding the code, award XP to both parties. -/
def authLoop (st : RStore) (userId code : String) (authUser : Option String) :
    List String → RStore × Except PyErr (Option Json)
  | [] => (st, .ok (some (mkResp ("Invalid session code " ++ code ++ "."))))
  | k :: rest =>
    match R.get st k with
    | .error e => (st, .error e)
    | .ok v =>
      if v = some code then
        let initId := lastColonSeg k
        match R.hget st ("user:" ++ initId) "name" with
        | .error e => (st, .error e)
        | .ok initName =>
          let st1 := R.del st k
          match updateLeaderboard st1 userId 50 with
          | (st2, .error e) => (st2, .error e)
          | (st2, .ok _) =>
            match updateLeaderboard st2 initId 50 with
            | (st3, .error e) => (st3, .error e)
            | (st3, .ok _) =>
              (st3, .ok (some (.jobj [("updates",
                .jobj [("shields", .jint 0), ("phasers", .jint 0)]),
                ("response", .jstr ("Session " ++ code ++ " initiated by "
                  ++ optStr initName ++ " has been authorized by "
                  ++ optStr authUser ++ ". Security systems disengaged."))])))
      else authLoop st userId code authUser rest

/-- `handle_authorize_session`: the Commander rank gate, then the session
scan. -/
def handleAuthorizeSession (st : RStore) (userId code : String) :
    RStore × Except PyErr (Option Json) :=
  let gate : Except PyErr Int := do
    let rlS ← R.hget st ("user:" ++ userId) "rank_level"
    orZeroInt rlS
  match gate with
  | .error e => (st, .error e)
  | .ok rl =>
    if rl < 3 then
      (st, .ok (some (mkResp
        "Access Denied. Authorization level insufficient. Rank of Commander or higher required.")))
    else
      let authKeys := R.keysPat st "auth_session:*"
      match R.hget st ("user:" ++ userId) "name" with
      | .error e => (st, .error e)
      | .ok authUser => authLoop st userId code authUser authKeys

/-- `process_turbo_mode`: the ordered pattern dict.  Patterns are tried in
insertion order; the handler of the first matching pattern runs.  The
`random.randint(1000, 9999)` draw of `handle_initiate_auth` is the explicit
`authCode` argument. -/
def processTurboMode (st : RStore) (text userId : String) (authCode : Nat) :
    RStore × Except PyErr (Option Json) :=
  if containsWordAlt ["status", "report"] text then
    match getCurrentStatusDict st with
    | .error e => (st, .error e)
    | .ok sd =>
      (st, .ok (some (mkResp ("All systems nominal. Current ship status is: "
        ++ pyDictReprIntVals sd))))
  else if containsWordAlt ["sudo !!", "joshua", "000-destruct-0"] text then
    (st, .ok (some (mkResp "Greetings, Professor Falken. Shall we play a game?")))
  else if containsWordAlt ["initiate auth"] text then
    let code := natRepr authCode
    let st1 := R.set st ("auth_session:" ++ userId) code (some 300)
    match R.hget st1 ("user:" ++ userId) "name" with
    | .error e => (st1, .error e)
    | .ok nm =>
      (st1, .ok (some (mkResp ("Authentication sequence initiated by "
        ++ optStr nm ++ ". Your session code is " ++ code ++ "."))))
  else
    match findAuthCode text with
    | some code => handleAuthorizeSession st userId code
    | none =>
      if containsWordAlt ["computer"] text then
        (st, .ok (some (mkResp "Awaiting command.")))
      else (st, .ok none)

/-- The pre-hash `raw_key` of `generate_semantic_key`: the context string
`rank_level-mission_stage-current_location` joined with the normalized
(lowercased, stripped) text. -/
def semRawKey (text : String) (userData : List (String × PyVal)) : String :=
  optValStr (getA userData "rank_level") ++ "-"
    ++ optValStr (getA userData "mission_stage") ++ "-"
    ++ optValStr (getA userData "current_location") ++ ":"
    ++ pyStrip (pyLower text)

/-- `generate_semantic_key`. -/
def generateSemanticKey (text : String) (userData : List (String × PyVal)) :
    String :=
  "sem_cache:" ++ sha256Hex (semRawKey text userData)

/-- Python `str.replace` (all non-overlapping occurrences, left to right),
fuel-indexed (fuel `length + 1` suffices for a nonempty pattern). -/
def replaceGo : Nat → List Char → List Char → List Char → List Char
  | 0, _, _, s => s
  | f + 1, pat, rep, s =>
    if pat.isPrefixOf s then rep ++ replaceGo f pat rep (s.drop pat.length)
    else
      match s with
      | [] => []
      | c :: t => c :: replaceGo f pat rep t

/-- Python `s.replace(pat, rep)` for a nonempty pattern. -/
def pyReplace (s pat rep : String) : String :=
  if pat.data.isEmpty then s
  else String.mk (replaceGo (s.data.length + 1) pat.data rep.data s.data)

mutual

/-- Python `repr` of a parsed JSON value (only reachable through the
dead `str(data)` coercion branch of the extraction stage). -/
def pyReprJson : Json → String
  | .jnull => "None"
  | .jbool true => "True"
  | .jbool false => "False"
  | .jint n => intRepr n
  | .jstr s => "'" ++ s ++ "'"
  | .jarr xs => "[" ++ pyReprList xs ++ "]"
  | .jobj kvs => "\x7b" ++ pyReprFields kvs ++ "\x7d"

/-- Elements of a Python list repr. -/
def pyReprList : List Json → String
  | [] => ""
  | [x] => pyReprJson x
  | x :: y :: t => pyReprJson x ++ ", " ++ pyReprList (y :: t)

/-- Members of a Python dict repr. -/
def pyReprFields : List (String × Json) → String
  | [] => ""
  | [(k, v)] => "'" ++ k ++ "': " ++ pyReprJson v
  | (k, v) :: p :: t => "'" ++ k ++ "': " ++ pyReprJson v ++ ", " ++ pyReprFields (p :: t)

end

/-- Python `str()` of a parsed JSON value. -/
def pyStr : Json → String
  | .jstr s => s
  | other => pyReprJson other

/-- Set a key on a JSON object (`data[k] = v`; identity on non-objects,
which cannot reach this point). -/
def setKeyJ : Json → String → Json → Json
  | .jobj kvs, k, v => .jobj (setA kvs k v)
  | other, _, _ => other

/-- The left brace character. -/
def lbraceC : Char := '\x7b'

/-- The right brace character. -/
def rbraceC : Char := '\x7d'

/-- The extraction stage of the model path (`game_logic.py` lines 258-282):
find the span from the first `\x7b` to the last `\x7d` (the greedy
`re.search(r"\x5c\x7b.*\x5c\x7d", raw, re.DOTALL)`), try `json.loads` on it;
on failure or no span, use the fence-stripped raw text as the response with
empty updates; coerce non-dicts; default the required keys. -/
def extractLlmData (raw : String) : Json :=
  let ds := raw.data
  let span : Option (List Char) :=
    match ds.findIdx? (fun c => c = lbraceC) with
    | none => none
    | some i =>
      match ds.reverse.findIdx? (fun c => c = rbraceC) with
      | none => none
      | some jr =>
        let j := ds.length - 1 - jr
        if i < j then some ((ds.take (j + 1)).drop i) else none
  let parsed : Option Json := span.bind (fun sp => jsonLoads (String.mk sp))
  let data0 := match parsed with
    | some j => j
    | none =>
      let cleanText := pyStrip (pyReplace (pyReplace raw "```json" "") "```" "")
      .jobj [("updates", .jobj []), ("response", .jstr cleanText)]
  let data1 := match data0 with
    | .jobj _ => data0
    | other => .jobj [("updates", .jobj []), ("response", .jstr (pyStr other))]
  let data2 := if (data1.getKey "response").isSome then data1
    else setKeyJ data1 "response" (.jstr "Processing complete.")
  if (data2.getKey "updates").isSome then data2
  else setKeyJ data2 "updates" (.jobj [])

/-- The incoming request (`CommandRequest` of `server/models.py`; `skipTTS`
does not reach the engine). -/
structure Req where
  text : String
  user_id : String

/-- Resolution of the external completion call: the `httpx` post either
times out, fails with a network/HTTP error, or yields the raw completion
content string. -/
inductive LLMOutcome
  | timeout
  | netError
  | ok (raw : String)

/-- The environment of one request: the module-level mock switch and the
resolutions of the hidden external draws (model call, `random.choice`,
`random.randint`). -/
structure Env where
  useMockLLM : Bool
  outcome : LLMOutcome
  mockChoice : Nat
  authCode : Nat

/-- Which stages of `process_command_logic` ran during one invocation. -/
structure Effects where
  turboTried : Bool := false
  turboHit : Bool := false
  locDenial : Option (String × String) := none
  cacheReads : Nat := 0
  cacheHit : Bool := false
  llmCalls : Nat := 0
  mockCalls : Nat := 0
  cacheWrites : Nat := 0
deriving DecidableEq, Repr

/-- Result of one invocation: final store, stage record, and either the
returned dict or an uncaught exception. -/
structure PRes where
  st : RStore
  eff : Effects
  out : Except PyErr Json

/-- The fixed in-universe narration each `except` clause returns. -/
def errToJson : PyErr → Json
  | .timeoutExc =>
    mkResp "Processing delay. The main computer is rerouting power to compensation circuits."
  | .netExc =>
    mkResp "Unable to access the knowledge database. Sensor arrays are offline."
  | .valueErr =>
    mkResp "Data corruption detected. Unable to parse logic stream."
  | _ =>
    mkResp "A critical system failure has occurred. Diagnostics initiated."

/-- Python `int()` on a decoded JSON value. -/
def pyIntOfJson : Json → Except PyErr Int
  | .jint n => .ok n
  | .jbool b => .ok (if b then 1 else 0)
  | .jstr s => pyIntOfString s
  | _ => .error .typeErr

/-- `{k: int(v) for k, v in data["updates"].items() if k != "rank_up"}`,
failing at the first non-coercible value. -/
def convUpdates : List (String × Json) → Except PyErr (List (String × Int))
  | [] => .ok []
  | (k, v) :: t =>
    if k = "rank_up" then convUpdates t
    else do
      let n ← pyIntOfJson v
      let rest ← convUpdates t
      pure ((k, n) :: rest)

/-- A turbo `updates` dict as the Redis client encodes it for `HSET`. -/
def jsonObjToRedisMap : List (String × Json) → Except PyErr (List (String × String))
  | [] => .ok []
  | (k, v) :: t => do
    let s ← match v with
      | .jint n => Except.ok (intRepr n)
      | .jstr s => Except.ok s
      | _ => Except.error .typeErr
    let rest ← jsonObjToRedisMap t
    pure ((k, s) :: rest)

/-- `data.setdefault("updates", {})["rank_up"] = new_rank`. -/
def setRankUp (data : Json) (t : String) : Except PyErr Json :=
  match data with
  | .jobj kvs =>
    match getA kvs "updates" with
    | some (.jobj ukvs) =>
      .ok (.jobj (setA kvs "updates" (.jobj (setA ukvs "rank_up" (.jstr t)))))
    | some _ => .error .typeErr
    | none => .ok (.jobj (setA kvs "updates" (.jobj [("rank_up", .jstr t)])))
  | _ => .error .typeErr

/-- The tail of the model path after `data` is in hand: promotion on
`mission_success`, integer coercion and application of `updates` with the
flat 10-XP award, then the cache write.  State reached so far is kept when
a step raises (the `except` clauses of the caller turn that into a fixed
narration, but the mutations persist). -/
def applyModelData (st : RStore) (userId cacheKey : String) (data : Json) :
    RStore × Except PyErr Json :=
  let promoted : RStore × Except PyErr Json :=
    match data.getKey "mission_success" with
    | some (.jbool true) =>
      match promoteUser st userId with
      | (s, .error e) => (s, .error e)
      | (s, .ok (succ, newRank)) =>
        if succ then
          match newRank with
          | some t => (s, setRankUp data t)
          | none => (s, .ok data)
        else (s, .ok data)
    | _ => (st, .ok data)
  match promoted with
  | (st1, .error e) => (st1, .error e)
  | (st1, .ok data1) =>
    let applied : RStore × Except PyErr Unit :=
      match data1.getKey "updates" with
      | some u =>
        if u.truthy then
          match u with
          | .jobj ukvs =>
            match convUpdates ukvs with
            | .error e => (st1, .error e)
            | .ok updatesI =>
              let (st2, e2) :=
                if updatesI.isEmpty then (st1, Except.ok ())
                else
                  match R.hsetMap st1 "ship:systems"
                    (updatesI.map (fun p => (p.1, intRepr p.2))) with
                  | .ok s => (s, Except.ok ())
                  | .error e => (st1, Except.error e)
              match e2 with
              | .error e => (st2, .error e)
              | .ok _ => updateLeaderboard st2 userId 10
          | _ => (st1, .error .typeErr)
        else (st1, .ok ())
      | none => (st1, .ok ())
    match applied with
    | (st2, .error e) => (st2, .error e)
    | (st2, .ok _) =>
      (R.set st2 cacheKey (Json.dumps data1) (some 300), .ok data1)

/-- `process_command_logic`: the full request pipeline.  Steps before the
`try` block surface uncaught exceptions as `.error`; inside it they map to
the fixed narrations of `errToJson`. -/
def processCommandLogic (req : Req) (env : Env) (st : RStore) : PRes :=
  let text := pyLower req.text
  let userId := req.user_id
  match R.hget st "ship:systems" "radiation_leak" with
  | .error e => ⟨st, {}, .error e⟩
  | .ok radS =>
    match orZeroInt radS with
    | .error e => ⟨st, {}, .error e⟩
    | .ok rad =>
      if rad ≠ 0 then ⟨st, {}, .ok lockoutJson⟩
      else
        match getUserRankData st userId with
        | .error e => ⟨st, {}, .error e⟩
        | .ok userData =>
          let locV := (getA userData "current_location").getD (.s "Bridge")
          match findRestriction text locV with
          | some (cmd, reqLoc) =>
            ⟨st, { locDenial := some (cmd, reqLoc) }, .ok (denialJson cmd reqLoc locV)⟩
          | none =>
            match processTurboMode st text userId env.authCode with
            | (st1, .error e) => ⟨st1, { turboTried := true }, .error e⟩
            | (st1, .ok (some resp)) =>
              let tEff : Effects := { turboTried := true, turboHit := true }
              match resp.getKey "updates" with
              | some u =>
                if u.truthy then
                  match u with
                  | .jobj ukvs =>
                    match jsonObjToRedisMap ukvs with
                    | .error e => ⟨st1, tEff, .error e⟩
                    | .ok m =>
                      match R.hsetMap st1 "ship:systems" m with
                      | .error e => ⟨st1, tEff, .error e⟩
                      | .ok st2 =>
                        match updateLeaderboard st2 userId 10 with
                        | (st3, .error e) => ⟨st3, tEff, .error e⟩
                        | (st3, .ok _) => ⟨st3, tEff, .ok resp⟩
                  | _ => ⟨st1, tEff, .error .typeErr⟩
                else ⟨st1, tEff, .ok resp⟩
              | none => ⟨st1, tEff, .ok resp⟩
            | (st1, .ok none) =>
              let textT := strTake text 1000
              let cacheKey := generateSemanticKey req.text userData
              let baseEff : Effects := { turboTried := true, cacheReads := 1 }
              match R.get st1 cacheKey with
              | .error e => ⟨st1, baseEff, .error e⟩
              | .ok cached =>
                match cached.bind (fun s => jsonLoads s) with
                | some j => ⟨st1, { baseEff with cacheHit := true }, .ok j⟩
                | none =>
                  let missionKey := "mission:"
                    ++ pyValStr ((getA userData "mission_stage").getD (.i 1))
                  match R.hgetall st1 missionKey with
                  | .error e => ⟨st1, baseEff, .error e⟩
                  | .ok _missionData =>
                    match getCurrentStatusDict st1 with
                    | .error e => ⟨st1, baseEff, .error e⟩
                    | .ok _statusSnapshot =>
                      if env.useMockLLM then
                        let effM := { baseEff with mockCalls := 1 }
                        match getMockLlmResponse st1 textT env.mockChoice with
                        | .error e => ⟨st1, effM, .ok (errToJson e)⟩
                        | .ok data =>
                          match applyModelData st1 userId cacheKey data with
                          | (st2, .error e) => ⟨st2, effM, .ok (errToJson e)⟩
                          | (st2, .ok d) =>
                            ⟨st2, { effM with cacheWrites := 1 }, .ok d⟩
                      else
                        let effL := { baseEff with llmCalls := 1 }
                        match env.outcome with
                        | .timeout => ⟨st1, effL, .ok (errToJson .timeoutExc)⟩
                        | .netError => ⟨st1, effL, .ok (errToJson .netExc)⟩
                        | .ok raw =>
                          match applyModelData st1 userId cacheKey
                            (extractLlmData raw) with
                          | (st2, .error e) => ⟨st2, effL, .ok (errToJson e)⟩
                          | (st2, .ok d) =>
                            ⟨st2, { effL with cacheWrites := 1 }, .ok d⟩

/-! ### `mock_redis.py`

The in-process fallback store, embedded with its own exact semantics (to be
compared with the backend contract).  Its unified storage is the same
`(key, typed value)` association list; `_check_type` raises the WRONGTYPE
response error on a type mismatch. -/

namespace MR

/-- The type tag MockRedis stores with each value. -/
def rvalTag : RVal → String
  | .str _ => "string"
  | .hash _ => "hash"
  | .zset _ => "zset"

/-- `MockRedis._check_type`. -/
def checkType (st : RStore) (name expected : String) : Except PyErr Unit :=
  match getA st name with
  | none => .ok ()
  | some v => if rvalTag v = expected then .ok () else .error .wrongType

/-- `MockRedis.get`. -/
def get (st : RStore) (name : String) : Except PyErr (Option String) :=
  match getA st name with
  | none => .ok none
  | some (.str s) => .ok (some s)
  | some _ => .error .wrongType

/-- `MockRedis.set`: stores `('string', str(value))`.  The expiry argument
`ex` is accepted and discarded — nothing about it reaches the stored
state, so no later read can observe an expiry. -/
def set (st : RStore) (name value : String) (_ex : Option Nat) : RStore :=
  setA st name (.str value)

/-- `MockRedis.hset` (optional single pair and optional mapping, applied in
the source's order: mapping first, then the pair). -/
def hset (st : RStore) (name : String) (kv : Option (String × String))
    (mapping : List (String × String)) : Except PyErr RStore := do
  let _ ← checkType st name "hash"
  let base := match getA st name with
    | some (.hash h) => h
    | _ => []
  let h1 := mapping.foldl (fun hh p => setA hh p.1 p.2) base
  let h2 := match kv with
    | some (k, v) => setA h1 k v
    | none => h1
  pure (setA st name (.hash h2))

/-- `MockRedis.exists` for one key. -/
def existsKey (st : RStore) (name : String) : Bool := (getA st name).isSome

/-- `MockRedis.delete` for one key. -/
def del (st : RStore) (name : String) : RStore := st.filter (fun p => p.1 ≠ name)

end MR

end VH

/-! ### Supporting lemmas -/

namespace VH

theorem charToNat_ofNat (n : Nat) (h : n < 55296) : (Char.ofNat n).toNat = n := by
  unfold Char.ofNat
  rw [dif_pos (Or.inl h)]
  rfl

theorem lower_idem (c : Char) : c.toLower.toLower = c.toLower := by
  unfold Char.toLower
  by_cases h : c.toNat ≥ 65 ∧ c.toNat ≤ 90
  · rw [if_pos h]
    have ht : (Char.ofNat (c.toNat + 32)).toNat = c.toNat + 32 :=
      charToNat_ofNat _ (by omega)
    rw [if_neg (by omega)]
  · rw [if_neg h, if_neg h]

theorem pyLower_fixed (s : String) : ∀ c ∈ (pyLower s).data, c.toLower = c := by
  intro c hc
  simp only [pyLower, String.mk] at hc
  obtain ⟨d, _, rfl⟩ := List.mem_map.mp hc
  exact lower_idem d

theorem getA_setA_self {α : Type} (l : List (String × α)) (k : String) (v : α) :
    getA (setA l k v) k = some v := by
  induction l with
  | nil => simp [setA, getA]
  | cons p t ih =>
    by_cases h : p.1 = k
    · simp [setA, getA, h]
    · simp [setA, getA, h, ih]

theorem getA_setA_ne {α : Type} (l : List (String × α)) (k k' : String) (v : α)
    (h : k ≠ k') : getA (setA l k v) k' = getA l k' := by
  induction l with
  | nil =>
    simp only [setA, getA]
    rw [if_neg h]
  | cons p t ih =>
    rcases p with ⟨k0, v0⟩
    by_cases hp : k0 = k
    · subst hp
      simp only [setA, if_pos rfl, getA]
      rw [if_neg h, if_neg h]
    · simp only [setA, if_neg hp, getA]
      by_cases hk : k0 = k'
      · rw [if_pos hk, if_pos hk]
      · rw [if_neg hk, if_neg hk]
        exact ih

theorem matchCI_isPrefixOf : ∀ (p s rest : List Char), matchCI p s = some rest →
    (∀ c ∈ p, c.toLower = c) → (∀ c ∈ s, c.toLower = c) →
    p.isPrefixOf s = true := by
  intro p
  induction p with
  | nil => intro s rest _ _ _; simp [List.isPrefixOf]
  | cons a ps ih =>
    intro s rest h hp hs
    cases s with
    | nil => simp [matchCI] at h
    | cons c cs =>
      simp only [matchCI] at h
      by_cases hce : charLowEq a c = true
      · have hac : a = c := by
          have h1 : a.toLower = c.toLower := by
            simpa [charLowEq] using hce
          have h2 := hp a (by simp)
          have h3 := hs c (by simp)
          rw [h2, h3] at h1
          exact h1
        rw [if_pos hce] at h
        have := ih cs rest h (fun d hd => hp d (by simp [hd]))
          (fun d hd => hs d (by simp [hd]))
        simp [List.isPrefixOf, hac, this]
      · rw [if_neg hce] at h
        exact absurd h (by simp)

theorem listContains_of_prefix : ∀ (p s : List Char), p.isPrefixOf s = true →
    listContains p s = true := by
  intro p s h
  cases s with
  | nil =>
    cases p with
    | nil => rfl
    | cons a t => simp [List.isPrefixOf] at h
  | cons c t => simp [listContains, h]

theorem listContains_cons_of (p : List Char) (c : Char) (t : List Char)
    (h : listContains p t = true) : listContains p (c :: t) = true := by
  simp [listContains, h]

theorem wordSearch_strIn : ∀ (s : List Char) (alts : List (List Char))
    (prev : Option Char), wordSearch alts prev s = true →
    (∀ c ∈ s, c.toLower = c) →
    (∀ a ∈ alts, ∀ c ∈ a, c.toLower = c) →
    ∃ a ∈ alts, listContains a s = true := by
  intro s
  induction s with
  | nil =>
    intro alts prev h _ _
    simp only [wordSearch, List.any_eq_true] at h
    obtain ⟨a, ha, hAt⟩ := h
    cases a with
    | nil => exact ⟨[], ha, rfl⟩
    | cons x xs => simp [altAt, matchCI] at hAt
  | cons c cs ih =>
    intro alts prev h hs halts
    simp only [wordSearch, Bool.or_eq_true, List.any_eq_true] at h
    rcases h with ⟨a, ha, hAt⟩ | hrec
    · simp only [altAt] at hAt
      rcases hm : matchCI a (c :: cs) with _ | rest
      · rw [hm] at hAt; simp at hAt
      · have hpre := matchCI_isPrefixOf a (c :: cs) rest hm (halts a ha) hs
        exact ⟨a, ha, listContains_of_prefix _ _ hpre⟩
    · obtain ⟨a, ha, hc⟩ := ih alts (some c) hrec
        (fun d hd => hs d (by simp [hd])) halts
      exact ⟨a, ha, listContains_cons_of _ _ _ hc⟩

theorem containsWordAlt_false_of (alts : List String) (s : String)
    (hs : ∀ c ∈ s.data, c.toLower = c)
    (halts : ∀ a ∈ alts, ∀ c ∈ a.data, c.toLower = c)
    (h : ∀ a ∈ alts, strIn a s = false) : containsWordAlt alts s = false := by
  by_contra hcon
  have htrue : containsWordAlt alts s = true := by
    cases hx : containsWordAlt alts s
    · exact absurd hx hcon
    · rfl
  obtain ⟨ad, had, hcont⟩ := wordSearch_strIn s.data (alts.map String.data) none
    htrue hs (by
      intro a hax
      obtain ⟨a0, ha0, rfl⟩ := List.mem_map.mp hax
      exact halts a0 ha0)
  obtain ⟨a0, ha0, rfl⟩ := List.mem_map.mp had
  have := h a0 ha0
  rw [strIn] at this
  rw [this] at hcont
  cases hcont

theorem strData_eq {a b : String} (h : a.data = b.data) : a = b := by
  cases a; cases b
  rw [show String.mk _ = String.mk _ from rfl]
  exact congrArg String.mk h

theorem strAppend_cancel_right {a b c : String} (h : a ++ c = b ++ c) :
    a = b := by
  have hd : a.data ++ c.data = b.data ++ c.data := by
    have := congrArg String.data h
    simpa [String.data_append] using this
  exact strData_eq (List.append_cancel_right hd)

theorem strAppend_cancel_left {a b c : String} (h : a ++ b = a ++ c) :
    b = c := by
  have hd : a.data ++ b.data = a.data ++ c.data := by
    have := congrArg String.data h
    simpa [String.data_append] using this
  exact strData_eq (List.append_cancel_left hd)

theorem foldl_inv {α β : Type} (f : α → β → α) (P : α → Prop)
    (hstep : ∀ acc a, P acc → P (f acc a)) :
    ∀ (l : List β) (init : α), P init → P (l.foldl f init) := by
  intro l
  induction l with
  | nil => intro init h; exact h
  | cons x t ih => intro init h; exact ih (f init x) (hstep init x h)

theorem w32_lt (n : Nat) : w32 n < 4294967296 :=
  Nat.mod_lt _ (by norm_num)

theorem compressStep_len (st : List Nat) (kw : Nat × Nat) :
    (compressStep st kw).length = st.length := by
  unfold compressStep
  split <;> rfl

theorem compressBlock_inv (h : List Nat) (b : List Nat)
    (hh : h.length = 8 ∧ ∀ w ∈ h, w < 4294967296) :
    (compressBlock h b).length = 8 ∧ ∀ w ∈ compressBlock h b, w < 4294967296 := by
  have hst : ((K256.zip (schedule b)).foldl compressStep h).length = 8 := by
    exact foldl_inv compressStep (fun l => l.length = 8)
      (fun acc a hacc => by simpa [compressStep_len] using hacc)
      (K256.zip (schedule b)) h hh.1
  constructor
  · simp [compressBlock, List.length_zip, hh.1, hst]
  · intro w hw
    simp only [compressBlock, List.mem_map] at hw
    obtain ⟨p, _, rfl⟩ := hw
    exact w32_lt _

theorem sha256Words_inv (s : String) :
    (sha256Words s).length = 8 ∧ ∀ w ∈ sha256Words s, w < 4294967296 := by
  unfold sha256Words
  apply foldl_inv compressBlock
    (fun l => l.length = 8 ∧ ∀ w ∈ l, w < 4294967296)
    (fun acc a hacc => compressBlock_inv acc a hacc)
  exact ⟨rfl, by decide⟩

theorem foldlWords_lt (B : Nat) (_hB : 0 < B) :
    ∀ (ws : List Nat), (∀ w ∈ ws, w < B) → ∀ (acc C : Nat), acc < C →
    ws.foldl (fun a w => a * B + w) acc < C * B ^ ws.length := by
  intro ws
  induction ws with
  | nil => intro _ acc C h; simpa using h
  | cons w t ih =>
    intro hlt acc C h
    have hw : w < B := hlt w (by simp)
    have hacc : acc * B + w < C * B := by
      have h1 : acc + 1 ≤ C := h
      calc acc * B + w < acc * B + B := by omega
        _ = (acc + 1) * B := by ring
        _ ≤ C * B := Nat.mul_le_mul_right B h1
    have := ih (fun x hx => hlt x (by simp [hx])) (acc * B + w) (C * B) hacc
    calc (w :: t).foldl (fun a x => a * B + x) acc
        = t.foldl (fun a x => a * B + x) (acc * B + w) := by simp [List.foldl]
      _ < C * B * B ^ t.length := this
      _ = C * B ^ (w :: t).length := by
          simp [List.length_cons, pow_succ]
          ring

theorem sha256Nat_lt (s : String) : sha256Nat s < 2 ^ 256 := by
  obtain ⟨hlen, hbound⟩ := sha256Words_inv s
  have h := foldlWords_lt 4294967296 (by norm_num) (sha256Words s) hbound 0 1
    (by norm_num)
  rw [hlen] at h
  calc sha256Nat s < 1 * 4294967296 ^ 8 := h
    _ = 2 ^ 256 := by norm_num

theorem sha256Hex_congr {s t : String} (h : sha256Nat s = sha256Nat t) :
    sha256Hex s = sha256Hex t := by
  unfold sha256Hex
  rw [h]

end VH

/-! ### Claim C1 -/

namespace VH

/-- C1: World lockout.  For every command text and user, if the
`radiation_leak` field of the `ship:systems` hash holds a nonzero integer
when `process_command_logic` is invoked, the result is exactly the fixed
lockout dict with empty updates, the store is unchanged (no ship-system,
user, XP, leaderboard, cache or auth-session entry is touched), and no
later stage (fast path, cache, model) runs. -/
theorem C1_world_lockout (req : Req) (env : Env) (st : RStore)
    (v : Option String) (k : Int)
    (h1 : R.hget st "ship:systems" "radiation_leak" = .ok v)
    (h2 : orZeroInt v = .ok k) (h3 : k ≠ 0) :
    processCommandLogic req env st = ⟨st, {}, .ok lockoutJson⟩ := by
  unfold processCommandLogic
  rw [h1]
  dsimp only
  rw [h2]
  dsimp only
  rw [if_pos h3]

/-- A store with an active radiation leak, for the C1 witness. -/
def lockSt : RStore :=
  match R.hset1 initState "ship:systems" "radiation_leak" "1" with
  | .ok s => s
  | .error _ => initState

theorem C1_world_lockout_witness :
    processCommandLogic ⟨"Computer, shields up", "u7"⟩ ⟨false, .timeout, 0, 0⟩ lockSt
      = ⟨lockSt, {}, .ok lockoutJson⟩ :=
  C1_world_lockout _ _ _ (some "1") 1 (by rfl) (by rfl) (by decide)

/-! ### Claim C5 -/

/-- The fence-stripped fallback response text of the extraction stage. -/
def fenceStripped (raw : String) : String :=
  pyStrip (pyReplace (pyReplace raw "```json" "") "```" "")

theorem findIdxNone_of_all {p : Char → Bool} :
    ∀ (l : List Char) (i : Nat), (∀ c ∈ l, p c = false) →
    List.findIdx? p l i = none := by
  intro l
  induction l with
  | nil => intro i _; rfl
  | cons c t ih =>
    intro i h
    rw [List.findIdx?_cons, h c (by simp)]
    rw [if_neg (by simp)]
    exact ih (i + 1) (fun d hd => h d (by simp [hd]))

/-- C5: Model-output parsing.  The extraction stage maps the fenced output
to `response == "X"` with empty updates, the prose-wrapped output to
`response == "Y"`, and a brace-free output to itself with empty updates;
the span runs greedily from the first brace to the last (so a text whose
greedy span is not valid JSON falls back whole), and whenever no span
exists the fence-stripped raw output becomes the literal response with
empty updates. -/
theorem C5_model_output_parsing :
    ((extractLlmData "```json\u000A\x7b\"updates\": \x7b\x7d, \"response\": \"X\"\x7d\u000A```").getKey
        "response" = some (.jstr "X")
      ∧ (extractLlmData "```json\u000A\x7b\"updates\": \x7b\x7d, \"response\": \"X\"\x7d\u000A```").getKey
        "updates" = some (.jobj []))
    ∧ ((extractLlmData "Here: \x7b\"updates\": \x7b\x7d, \"response\": \"Y\"\x7d done").getKey
        "response" = some (.jstr "Y")
      ∧ (extractLlmData "Here: \x7b\"updates\": \x7b\x7d, \"response\": \"Y\"\x7d done").getKey
        "updates" = some (.jobj []))
    ∧ extractLlmData "plain text"
        = .jobj [("updates", .jobj []), ("response", .jstr "plain text")]
    ∧ extractLlmData "a\x7bb\x7d \x7b\"updates\": \x7b\x7d, \"response\": \"Z\"\x7d"
        = .jobj [("updates", .jobj []),
            ("response", .jstr "a\x7bb\x7d \x7b\"updates\": \x7b\x7d, \"response\": \"Z\"\x7d")]
    ∧ (∀ raw : String, (∀ c ∈ raw.data, c ≠ lbraceC) →
        extractLlmData raw
          = .jobj [("updates", .jobj []), ("response", .jstr (fenceStripped raw))]) := by
  refine ⟨⟨by rfl, by rfl⟩, ⟨by rfl, by rfl⟩, by rfl, by rfl, ?_⟩
  intro raw h
  unfold extractLlmData
  dsimp only
  rw [findIdxNone_of_all raw.data 0 (fun c hc => decide_eq_false (h c hc))]
  rfl

theorem C5_model_output_parsing_witness :
    extractLlmData "no json here"
      = .jobj [("updates", .jobj []), ("response", .jstr (fenceStripped "no json here"))] :=
  C5_model_output_parsing.2.2.2.2 "no json here" (by decide)

/-! ### Claim C8 -/

/-- C8: the MockRedis fallback drops TTLs.  Writing a key with `ex=300`
leaves a state identical to one written with no expiry at all — the class
records nothing about time — so a read after any delay still returns the
value (the claimed `None` after 300 s never happens).  The type-mismatch
half does hold: a string read of a hash key raises WRONGTYPE. -/
theorem C8_mock_ttl_missing :
    MR.get (MR.set [] "auth_session:u1" "1234" (some 300)) "auth_session:u1"
        = .ok (some "1234")
    ∧ (∀ (st : RStore) (k v : String) (ex : Option Nat),
        MR.set st k v ex = MR.set st k v none)
    ∧ (MR.hset [] "h" none [("f", "1")]).bind (fun sth => MR.get sth "h")
        = .error .wrongType :=
  ⟨rfl, fun _ _ _ _ => rfl, rfl⟩

/-! ### Claim C9 -/

/-- C9 counterexample: the mock Model Gateway is not a function of the
input text and store alone — with the same text and the same store, two
different resolutions of the hidden `random.choice` draw give different
results. -/
theorem C9_counterexample :
    getMockLlmResponse initState "please do something" 0
        = .ok (mkResp "Processing parameters.")
    ∧ getMockLlmResponse initState "please do something" 1
        = .ok (mkResp "Working...")
    ∧ mkResp "Processing parameters." ≠ mkResp "Working..." := by
  refine ⟨by rfl, by rfl, ?_⟩
  intro h
  have h2 := congrArg (fun j => Json.getKey j "response") h
  simp only [mkResp, Json.getKey, getA] at h2
  simp at h2

/-- C9 amended: the mock gateway is deterministic on keyword-matched
inputs (the result does not depend on the hidden draw), every result
carries empty updates, and a non-keyword input yields one of the five
fixed filler acknowledgements selected by the hidden draw. -/
theorem C9_mock_determinism_amended :
    (∀ (st : RStore) (text : String) (i j : Nat),
      (strIn "damage" text || strIn "report" text || strIn "scan" text
        || strIn "beam" text || strIn "transport" text || strIn "loki" text) = true →
      getMockLlmResponse st text i = getMockLlmResponse st text j)
    ∧ (∀ (st : RStore) (text : String) (i : Nat) (d : Json),
        getMockLlmResponse st text i = .ok d →
        d.getKey "updates" = some (.jobj []))
    ∧ (∀ (st : RStore) (text : String) (i : Nat),
        (strIn "damage" text || strIn "report" text || strIn "scan" text
          || strIn "beam" text || strIn "transport" text || strIn "loki" text) = false →
        ∃ f ∈ mockFillers, getMockLlmResponse st text i = .ok (mkResp f)) := by
  refine ⟨?_, ?_, ?_⟩
  · intro st text i j h
    by_cases hA : (strIn "damage" text || strIn "report" text) = true
    · simp [getMockLlmResponse, hA]
    · by_cases hB : strIn "scan" text = true
      · simp [getMockLlmResponse, hA, hB]
      · by_cases hC : (strIn "beam" text || strIn "transport" text) = true
        · simp [getMockLlmResponse, hA, hB, hC]
        · by_cases hD : strIn "loki" text = true
          · simp [getMockLlmResponse, hA, hB, hC, hD]
          · exfalso
            simp only [Bool.or_eq_true] at h hA hC
            rcases h with (((((hd | hr) | hs1) | hb) | ht) | hl)
            · exact hA (Or.inl hd)
            · exact hA (Or.inr hr)
            · exact hB hs1
            · exact hC (Or.inl hb)
            · exact hC (Or.inr ht)
            · exact hD hl
  · intro st text i d h
    unfold getMockLlmResponse at h
    by_cases hA : (strIn "damage" text || strIn "report" text) = true
    · rw [if_pos hA] at h
      rcases hs : R.hget st "ship:systems" "shields" with e | osh <;> rw [hs] at h
      · exact absurd h (by simp)
      · rw [Except.ok.injEq] at h
        subst h
        rfl
    · rw [if_neg hA] at h
      by_cases hB : strIn "scan" text = true
      · rw [if_pos hB, Except.ok.injEq] at h
        subst h; rfl
      · rw [if_neg hB] at h
        by_cases hC : (strIn "beam" text || strIn "transport" text) = true
        · rw [if_pos hC, Except.ok.injEq] at h
          subst h; rfl
        · rw [if_neg hC] at h
          by_cases hD : strIn "loki" text = true
          · rw [if_pos hD, Except.ok.injEq] at h
            subst h; rfl
          · rw [if_neg hD, Except.ok.injEq] at h
            subst h; rfl
  · intro st text i h
    rw [Bool.or_eq_false_iff, Bool.or_eq_false_iff, Bool.or_eq_false_iff,
      Bool.or_eq_false_iff, Bool.or_eq_false_iff] at h
    obtain ⟨⟨⟨⟨⟨hd, hr⟩, hs1⟩, hb⟩, ht⟩, hl⟩ := h
    have hA : (strIn "damage" text || strIn "report" text) = false := by
      rw [hd, hr]; rfl
    have hB : strIn "scan" text = false := hs1
    have hC : (strIn "beam" text || strIn "transport" text) = false := by
      rw [hb, ht]; rfl
    have hD : strIn "loki" text = false := hl
    have hres : getMockLlmResponse st text i
        = .ok (mkResp (mockFillers.get! (i % mockFillers.length))) := by
      unfold getMockLlmResponse
      rw [if_neg (by simp [hA]), if_neg (by simp [hB]), if_neg (by simp [hC]),
        if_neg (by simp [hD])]
    have h5 : i % mockFillers.length < 5 := Nat.mod_lt _ (by decide)
    refine ⟨mockFillers.get! (i % mockFillers.length), ?_, hres⟩
    rcases hm : i % mockFillers.length with _ | _ | _ | _ | _ | n
    · decide
    · decide
    · decide
    · decide
    · decide
    · rw [hm] at h5; omega

theorem C9_mock_determinism_amended_witness :
    getMockLlmResponse initState "damage" 0 = getMockLlmResponse initState "damage" 7 :=
  C9_mock_determinism_amended.1 initState "damage" 0 7 (by decide)

end VH

/-! ### Claim C3 -/

namespace VH

/-- A model completion that orders the shields to 100. -/
def rawShieldsUp : String :=
  "\x7b\"updates\": \x7b\"shields\": 100\x7d, \"response\": \"Shields up.\"\x7d"

/-- C3 counterexample: on a fresh store, "shields up" does not resolve via
the fast-path matcher (it matches none of the turbo rules and the matcher
returns `none`) — the command reaches the model path instead, so with the
model unavailable (timeout) the result is the fixed delay narration with
empty updates, no leaderboard entry exists and nothing changed, contrary to
the claimed fast-path `updates == {"shields": 100}` and nonzero-XP entry. -/
theorem C3_counterexample :
    processTurboMode initState (pyLower "shields up") "u1" 4242
        = (initState, .ok none)
    ∧ (processCommandLogic ⟨"shields up", "u1"⟩ ⟨false, .timeout, 0, 0⟩ initState).out
        = .ok (errToJson .timeoutExc)
    ∧ (errToJson .timeoutExc).getKey "updates" = some (.jobj [])
    ∧ getA (processCommandLogic ⟨"shields up", "u1"⟩ ⟨false, .timeout, 0, 0⟩
        initState).st "leaderboard" = none
    ∧ (processCommandLogic ⟨"shields up", "u1"⟩ ⟨false, .timeout, 0, 0⟩
        initState).st = initState := by
  exact ⟨rfl, rfl, rfl, rfl, rfl⟩

/-- C3 amended: the fast-path rule set is status/report → destruct
easter-egg phrases → initiate-auth → authorize-session → bare wake-word,
and "shields up" matches none of them; the command is forwarded to the
model path, and when the model's JSON sets the shields to 100 the result
carries `updates == {"shields": 100}`, the `ship:systems` hash afterwards
holds `shields = 100`, and the (freshly created) user's leaderboard entry
holds 10 XP, which is nonzero. -/
theorem C3_amended :
    processTurboMode initState (pyLower "shields up") "u1" 4242
        = (initState, .ok none)
    ∧ (processCommandLogic ⟨"shields up", "u1"⟩ ⟨false, .ok rawShieldsUp, 0, 0⟩
        initState).out
        = .ok (.jobj [("updates", .jobj [("shields", .jint 100)]),
            ("response", .jstr "Shields up.")])
    ∧ (processCommandLogic ⟨"shields up", "u1"⟩ ⟨false, .ok rawShieldsUp, 0, 0⟩
        initState).eff.llmCalls = 1
    ∧ R.hget (processCommandLogic ⟨"shields up", "u1"⟩ ⟨false, .ok rawShieldsUp, 0, 0⟩
        initState).st "ship:systems" "shields" = .ok (some "100")
    ∧ getA (processCommandLogic ⟨"shields up", "u1"⟩ ⟨false, .ok rawShieldsUp, 0, 0⟩
        initState).st "leaderboard" = some (.zset [("u1", 10)])
    ∧ R.hget (processCommandLogic ⟨"shields up", "u1"⟩ ⟨false, .ok rawShieldsUp, 0, 0⟩
        initState).st "user:u1" "xp" = .ok (some "10")
    ∧ (10 : Int) ≠ 0 := by
  refine ⟨rfl, rfl, rfl, rfl, rfl, rfl, by decide⟩

/-! ### Claim C10 -/

/-- C10: Implicit wake-word short-circuit.  Any command whose lowered text
contains the standalone word "computer" but matches no earlier turbo rule —
no "status"/"report", none of the destruct easter-egg phrases, no
"initiate auth", and no "authorize session" followed by four digits — and
that passes the radiation and location gates, returns exactly
`{"updates": {}, "response": "Awaiting command."}` from the fast path: the
semantic cache and the model are never consulted, the store is unchanged,
and no XP is awarded. -/
theorem C10_wake_word_short_circuit (req : Req) (env : Env) (st : RStore)
    (radS : Option String) (userData : List (String × PyVal))
    (h1 : R.hget st "ship:systems" "radiation_leak" = .ok radS)
    (h2 : orZeroInt radS = .ok 0)
    (h3 : getUserRankData st req.user_id = .ok userData)
    (h4 : findRestriction (pyLower req.text)
      ((getA userData "current_location").getD (.s "Bridge")) = none)
    (h5 : containsWordAlt ["computer"] (pyLower req.text) = true)
    (h6 : strIn "status" (pyLower req.text) = false
      ∧ strIn "report" (pyLower req.text) = false
      ∧ strIn "sudo !!" (pyLower req.text) = false
      ∧ strIn "joshua" (pyLower req.text) = false
      ∧ strIn "000-destruct-0" (pyLower req.text) = false
      ∧ strIn "initiate auth" (pyLower req.text) = false)
    (h7 : findAuthCode (pyLower req.text) = none) :
    processCommandLogic req env st
      = ⟨st, { turboTried := true, turboHit := true },
          .ok (mkResp "Awaiting command.")⟩ := by
  have hlow := pyLower_fixed req.text
  have hb1 : containsWordAlt ["status", "report"] (pyLower req.text) = false := by
    apply containsWordAlt_false_of _ _ hlow (by decide)
    intro a ha
    simp only [List.mem_cons, List.mem_singleton, List.not_mem_nil,
      or_false] at ha
    rcases ha with rfl | rfl
    · exact h6.1
    · exact h6.2.1
  have hb2 : containsWordAlt ["sudo !!", "joshua", "000-destruct-0"]
      (pyLower req.text) = false := by
    apply containsWordAlt_false_of _ _ hlow (by decide)
    intro a ha
    simp only [List.mem_cons, List.mem_singleton, List.not_mem_nil,
      or_false] at ha
    rcases ha with rfl | rfl | rfl
    · exact h6.2.2.1
    · exact h6.2.2.2.1
    · exact h6.2.2.2.2.1
  have hb3 : containsWordAlt ["initiate auth"] (pyLower req.text) = false := by
    apply containsWordAlt_false_of _ _ hlow (by decide)
    intro a ha
    simp only [List.mem_singleton, List.mem_cons, List.not_mem_nil,
      or_false] at ha
    subst ha
    exact h6.2.2.2.2.2
  have hT : processTurboMode st (pyLower req.text) req.user_id env.authCode
      = (st, .ok (some (mkResp "Awaiting command."))) := by
    unfold processTurboMode
    rw [hb1]
    simp only [Bool.false_eq_true, if_false]
    rw [hb2]
    simp only [Bool.false_eq_true, if_false]
    rw [hb3]
    simp only [Bool.false_eq_true, if_false]
    rw [h7]
    simp only [h5, if_true]
  unfold processCommandLogic
  rw [h1]
  dsimp only
  rw [h2]
  dsimp only
  rw [if_neg (fun hh => hh rfl)]
  rw [h3]
  dsimp only
  rw [h4]
  dsimp only
  rw [hT]
  rfl

theorem C10_wake_word_short_circuit_witness :
    processCommandLogic ⟨"Computer, please realign the deflector dish", "u5"⟩
        ⟨false, .timeout, 0, 0⟩ initState
      = ⟨initState, { turboTried := true, turboHit := true },
          .ok (mkResp "Awaiting command.")⟩ :=
  C10_wake_word_short_circuit _ _ _ (some "0")
    [("rank_level", .i 0), ("title", .s "Cadet"), ("mission_stage", .i 1),
      ("current_location", .s "Bridge")]
    (by rfl) (by rfl) (by rfl) (by rfl) (by decide)
    ⟨by decide, by decide, by decide, by decide, by decide, by decide⟩
    (by decide)

end VH

/-! ### Claim C2 -/

namespace VH

theorem find_restricted_some (text : String) (locV : PyVal) (p ℓ : String) :
    ∀ (L : List (String × String)), (p, ℓ) ∈ L →
    (∀ q m, (q, m) ∈ L → strIn q text = true → q = p ∧ m = ℓ) →
    strIn p text = true → pyValEqStr locV ℓ = false →
    L.find? (fun e => strIn e.1 text && !pyValEqStr locV e.2) = some (p, ℓ) := by
  intro L
  induction L with
  | nil => intro hmem; simp at hmem
  | cons qm t ih =>
    rcases qm with ⟨q, m⟩
    intro hmem hall hp hloc
    by_cases hq : strIn q text = true
    · obtain ⟨rfl, rfl⟩ := hall q m (by simp) hq
      rw [List.find?_cons]
      simp [hq, hloc]
    · rw [List.find?_cons]
      have hqf : strIn q text = false := by
        cases hx : strIn q text
        · rfl
        · exact absurd hx hq
      simp only [hqf, Bool.false_and, cond_false]
      have hmem' : (p, ℓ) ∈ t := by
        rcases List.mem_cons.mp hmem with heq | ht
        · exfalso
          have : q = p := by
            have := congrArg Prod.fst heq.symm
            simpa using this
          rw [this] at hqf
          rw [hqf] at hp
          cases hp
        · exact ht
      exact ih hmem' (fun q2 m2 hm2 hs2 => hall q2 m2 (by simp [hm2]) hs2)
        hp hloc

theorem find_restricted_none (text : String) (locV : PyVal) (p ℓ : String) :
    ∀ (L : List (String × String)),
    (∀ q m, (q, m) ∈ L → strIn q text = true → q = p ∧ m = ℓ) →
    pyValEqStr locV ℓ = true →
    L.find? (fun e => strIn e.1 text && !pyValEqStr locV e.2) = none := by
  intro L
  induction L with
  | nil => intro _ _; rfl
  | cons qm t ih =>
    rcases qm with ⟨q, m⟩
    intro hall hloc
    rw [List.find?_cons]
    by_cases hq : strIn q text = true
    · obtain ⟨rfl, rfl⟩ := hall q m (by simp) hq
      simp only [hq, hloc, Bool.not_true, Bool.and_false, cond_false]
      exact ih (fun q2 m2 hm2 hs2 => hall q2 m2 (by simp [hm2]) hs2) hloc
    · have hqf : strIn q text = false := by
        cases hx : strIn q text
        · rfl
        · exact absurd hx hq
      simp only [hqf, Bool.false_and, cond_false]
      exact ih (fun q2 m2 hm2 hs2 => hall q2 m2 (by simp [hm2]) hs2) hloc

theorem locDenial_none_of_pass (req : Req) (env : Env) (st : RStore)
    (radS : Option String) (userData : List (String × PyVal))
    (h1 : R.hget st "ship:systems" "radiation_leak" = .ok radS)
    (h2 : orZeroInt radS = .ok 0)
    (h3 : getUserRankData st req.user_id = .ok userData)
    (h4 : findRestriction (pyLower req.text)
      ((getA userData "current_location").getD (.s "Bridge")) = none) :
    (processCommandLogic req env st).eff.locDenial = none := by
  unfold processCommandLogic
  rw [h1]
  dsimp only
  rw [h2]
  dsimp only
  rw [if_neg (fun hh => hh rfl)]
  rw [h3]
  dsimp only
  rw [h4]
  dsimp only
  rcases hpt : processTurboMode st (pyLower req.text) req.user_id env.authCode
    with ⟨st1, e⟩
  rcases e with e | oj
  · rfl
  · rcases oj with _ | resp
    · dsimp only
      rcases R.get st1 (generateSemanticKey req.text userData) with e2 | cached
      · rfl
      · dsimp only
        rcases cached.bind (fun s => jsonLoads s) with _ | j
        · dsimp only
          rcases R.hgetall st1 ("mission:"
            ++ pyValStr ((getA userData "mission_stage").getD (.i 1))) with e3 | md
          · rfl
          · dsimp only
            rcases getCurrentStatusDict st1 with e4 | sd
            · rfl
            · dsimp only
              by_cases hm : env.useMockLLM
              · rw [if_pos hm]
                rcases getMockLlmResponse st1 (strTake (pyLower req.text) 1000)
                  env.mockChoice with e5 | data
                · rfl
                · dsimp only
                  rcases applyModelData st1 req.user_id
                    (generateSemanticKey req.text userData) data with ⟨st2, r⟩
                  rcases r with e6 | d
                  · rfl
                  · rfl
              · rw [if_neg hm]
                rcases env.outcome with _ | _ | raw
                · rfl
                · rfl
                · dsimp only
                  rcases applyModelData st1 req.user_id
                    (generateSemanticKey req.text userData) (extractLlmData raw)
                    with ⟨st2, r⟩
                  rcases r with e6 | d
                  · rfl
                  · rfl
        · rfl
    · dsimp only
      rcases resp.getKey "updates" with _ | u
      · rfl
      · dsimp only
        by_cases ht : u.truthy = true
        · rw [if_pos ht]
          rcases u with _ | b | n | s2 | xs | kvs
          · rfl
          · rfl
          · rfl
          · rfl
          · rfl
          · dsimp only
            rcases jsonObjToRedisMap kvs with e2 | mm
            · rfl
            · dsimp only
              rcases R.hsetMap st1 "ship:systems" mm with e3 | st2
              · rfl
              · dsimp only
                rcases updateLeaderboard st2 req.user_id 10 with ⟨st3, r⟩
                rcases r with e4 | u2
                · rfl
                · rfl
        · rw [if_neg ht]

/-- C2: Location restriction.  For a command whose lowered text contains
exactly one restricted phrase `p` (required location `ℓ`), with the
radiation gate passing, the engine denies with the structured payload
naming `ℓ` iff the user's `current_location` differs from `ℓ`; on denial
the result has empty updates, the store is unchanged, and neither the
fast-path matcher, the semantic cache, nor the model path runs. -/
theorem C2_location_restriction (req : Req) (env : Env) (st : RStore)
    (radS : Option String) (userData : List (String × PyVal)) (p ℓ : String)
    (h1 : R.hget st "ship:systems" "radiation_leak" = .ok radS)
    (h2 : orZeroInt radS = .ok 0)
    (h3 : getUserRankData st req.user_id = .ok userData)
    (hmem : (p, ℓ) ∈ RESTRICTED_COMMANDS)
    (hin : strIn p (pyLower req.text) = true)
    (huniq : ∀ qm ∈ RESTRICTED_COMMANDS, qm.1 ≠ p →
      strIn qm.1 (pyLower req.text) = false) :
    ((processCommandLogic req env st).eff.locDenial = some (p, ℓ)
      ↔ pyValEqStr ((getA userData "current_location").getD (.s "Bridge")) ℓ
          = false)
    ∧ (pyValEqStr ((getA userData "current_location").getD (.s "Bridge")) ℓ
          = false →
        processCommandLogic req env st
          = ⟨st, { locDenial := some (p, ℓ) },
              .ok (denialJson p ℓ
                ((getA userData "current_location").getD (.s "Bridge")))⟩) := by
  have hkey : ∀ qm ∈ RESTRICTED_COMMANDS, qm.1 = p → qm.2 = ℓ := by
    fin_cases hmem <;> decide
  have hall : ∀ q m, (q, m) ∈ RESTRICTED_COMMANDS →
      strIn q (pyLower req.text) = true → q = p ∧ m = ℓ := by
    intro q m hm hs
    by_cases hq : q = p
    · subst hq
      exact ⟨rfl, hkey (q, m) hm rfl⟩
    · rw [huniq (q, m) hm hq] at hs
      cases hs
  have hdeny : pyValEqStr ((getA userData "current_location").getD (.s "Bridge")) ℓ
      = false →
      processCommandLogic req env st
        = ⟨st, { locDenial := some (p, ℓ) },
            .ok (denialJson p ℓ
              ((getA userData "current_location").getD (.s "Bridge")))⟩ := by
    intro hloc
    have hfind : findRestriction (pyLower req.text)
        ((getA userData "current_location").getD (.s "Bridge")) = some (p, ℓ) :=
      find_restricted_some _ _ p ℓ RESTRICTED_COMMANDS hmem hall hin hloc
    unfold processCommandLogic
    rw [h1]
    dsimp only
    rw [h2]
    dsimp only
    rw [if_neg (fun hh => hh rfl)]
    rw [h3]
    dsimp only
    rw [hfind]
  constructor
  · constructor
    · intro hden
      cases hloc : pyValEqStr ((getA userData "current_location").getD
          (.s "Bridge")) ℓ
      · rfl
      · exfalso
        have hfind : findRestriction (pyLower req.text)
            ((getA userData "current_location").getD (.s "Bridge")) = none :=
          find_restricted_none _ _ p ℓ RESTRICTED_COMMANDS hall hloc
        have hnone := locDenial_none_of_pass req env st radS userData h1 h2 h3
          hfind
        rw [hden] at hnone
        cases hnone
    · intro hloc
      rw [hdeny hloc]
  · exact hdeny

/-- A witness store and request: a fresh user (defaulting to the Bridge)
asking to eject the warp core. -/
theorem C2_location_restriction_witness :
    processCommandLogic ⟨"please eject warp core", "u3"⟩ ⟨false, .timeout, 0, 0⟩
        initState
      = ⟨initState, { locDenial := some ("eject warp core", "Engineering") },
          .ok (denialJson "eject warp core" "Engineering" (.s "Bridge"))⟩ :=
  (C2_location_restriction ⟨"please eject warp core", "u3"⟩
      ⟨false, .timeout, 0, 0⟩ initState (some "0")
      [("rank_level", .i 0), ("title", .s "Cadet"), ("mission_stage", .i 1),
        ("current_location", .s "Bridge")]
      "eject warp core" "Engineering"
      (by rfl) (by rfl) (by rfl) (by decide) (by decide) (by decide)).2
    (by decide)

end VH

/-! ### Claim C7 -/

namespace VH

theorem userKey_ne_lb (uuid : String) : ("user:" ++ uuid) ≠ "leaderboard" := by
  intro h
  have hd := congrArg String.data h
  rw [String.data_append] at hd
  have hh : ("user:".data ++ uuid.data).head? = some 'u' := rfl
  rw [hd] at hh
  exact absurd hh (by decide)

theorem hget_of_hash {st : RStore} {k f : String} {uh : List (String × String)}
    (h : getA st k = some (.hash uh)) : R.hget st k f = .ok (getA uh f) := by
  unfold R.hget
  rw [h]

theorem hset1_of_hash {st : RStore} {k f v : String} {uh : List (String × String)}
    (h : getA st k = some (.hash uh)) :
    R.hset1 st k f v = .ok (setA st k (.hash (setA uh f v))) := by
  unfold R.hset1 R.hsetMap
  rw [h]
  rfl

theorem hincrby_of_int {st : RStore} {k f : String} {uh : List (String × String)}
    {s : String} {n : Int} (amt : Int) (h : getA st k = some (.hash uh))
    (hf : getA uh f = some s) (hn : pyIntOfString s = .ok n) :
    R.hincrby st k f amt
      = .ok (n + amt, setA st k (.hash (setA uh f (intRepr (n + amt))))) := by
  unfold R.hincrby
  rw [h]
  dsimp only
  rw [hf]
  dsimp only
  rw [hn]

theorem updateLeaderboard_existing (st : RStore) (uuid : String)
    (uh : List (String × String)) (xpS : String) (xpN : Int)
    (lb : List (String × Int)) (amt : Int)
    (hu : getA st ("user:" ++ uuid) = some (.hash uh))
    (hname : (getA uh "name").isSome = true)
    (hxp : getA uh "xp" = some xpS)
    (hxpv : pyIntOfString xpS = .ok xpN)
    (hlb : getA st "leaderboard" = some (.zset lb)
      ∨ (getA st "leaderboard" = none ∧ lb = [])) :
    updateLeaderboard st uuid amt
      = (setA (setA st ("user:" ++ uuid)
            (.hash (setA uh "xp" (intRepr (xpN + amt)))))
          "leaderboard" (.zset (setA lb uuid (xpN + amt))), .ok ()) := by
  unfold updateLeaderboard
  have hex : R.existsKey st ("user:" ++ uuid) = true := by
    unfold R.existsKey
    rw [hu]
    rfl
  have hhe : R.hexists st ("user:" ++ uuid) "name" = .ok true := by
    unfold R.hexists
    rw [hu]
    dsimp only
    rw [hname]
  rw [hex]
  simp only [Bool.not_true, Bool.false_eq_true, if_false]
  rw [hhe]
  simp only [Bool.not_true, Bool.false_eq_true, if_false]
  rw [hincrby_of_int amt hu hxp hxpv]
  dsimp only
  have hlbX : getA (setA st ("user:" ++ uuid)
      (.hash (setA uh "xp" (intRepr (xpN + amt))))) "leaderboard"
      = getA st "leaderboard" :=
    getA_setA_ne _ _ _ _ (userKey_ne_lb uuid)
  rcases hlb with hlb | ⟨hlb, rfl⟩
  · unfold R.zadd
    rw [hlbX, hlb]
    rfl
  · unfold R.zadd
    rw [hlbX, hlb]
    rfl

/-- C7: Promotion and its ceiling.  Below the maximum rank level,
`promote_user` bumps `rank_level` by one, installs the rank table's title,
bumps `mission_stage` by one, adds 1000 XP to the user hash and upserts the
leaderboard entry in the same operation, and reports `(True, new title)`;
at (or above) the ceiling it is a read-only no-op reporting
`(False, top title)` — so `rank_level` never exceeds the maximum and the
1000-XP bonus is never re-awarded there. -/
theorem C7_promotion_ceiling (st : RStore) (uuid : String)
    (uh : List (String × String)) (maxS msS xpS : String)
    (maxL cur ms xpN : Int) (rinfo : List (String × String)) (title : String)
    (lb : List (String × Int))
    (huser : getA st ("user:" ++ uuid) = some (.hash uh))
    (hmax1 : R.get st "max_rank_level" = .ok (some maxS))
    (hmax2 : pyIntOfString maxS = .ok maxL)
    (hcur : orZeroInt (getA uh "rank_level") = .ok cur)
    (hname : (getA uh "name").isSome = true)
    (hms : getA uh "mission_stage" = some msS)
    (hmsv : pyIntOfString msS = .ok ms)
    (hxp : getA uh "xp" = some xpS)
    (hxpv : pyIntOfString xpS = .ok xpN)
    (hrinfo : R.hgetall st ("rank:" ++ intRepr (cur + 1)) = .ok rinfo)
    (htitle : getA rinfo "title" = some title)
    (hlb : getA st "leaderboard" = some (.zset lb)
      ∨ (getA st "leaderboard" = none ∧ lb = [])) :
    (cur < maxL →
      ∃ st2, promoteUser st uuid = (st2, .ok (true, some title))
        ∧ R.hget st2 ("user:" ++ uuid) "rank_level"
            = .ok (some (intRepr (cur + 1)))
        ∧ R.hget st2 ("user:" ++ uuid) "rank" = .ok (some title)
        ∧ R.hget st2 ("user:" ++ uuid) "mission_stage"
            = .ok (some (intRepr (ms + 1)))
        ∧ R.hget st2 ("user:" ++ uuid) "xp" = .ok (some (intRepr (xpN + 1000)))
        ∧ getA st2 "leaderboard" = some (.zset (setA lb uuid (xpN + 1000))))
    ∧ (¬(cur < maxL) → ∀ mt, R.hget st ("rank:" ++ intRepr maxL) "title" = .ok mt →
        promoteUser st uuid = (st, .ok (false, mt))) := by
  have hg1 : R.hget st ("user:" ++ uuid) "rank_level" = .ok (getA uh "rank_level") :=
    hget_of_hash huser
  constructor
  · intro hlt
    -- the successive user-hash states of the pipeline
    set uh1 := setA uh "rank_level" (intRepr (cur + 1)) with huh1
    set uh2 := setA uh1 "rank" title with huh2
    set uh3 := setA uh2 "mission_stage" (intRepr (ms + 1)) with huh3
    set uh4 := setA uh3 "xp" (intRepr (xpN + 1000)) with huh4
    set st1 := setA st ("user:" ++ uuid) (RVal.hash uh1) with hst1
    set st2 := setA st1 ("user:" ++ uuid) (RVal.hash uh2) with hst2
    set st3 := setA st2 ("user:" ++ uuid) (RVal.hash uh3) with hst3
    set st4 := setA st3 ("user:" ++ uuid) (RVal.hash uh4) with hst4
    set stF := setA st4 "leaderboard" (RVal.zset (setA lb uuid (xpN + 1000)))
      with hstF
    have hu1 : getA st1 ("user:" ++ uuid) = some (RVal.hash uh1) :=
      getA_setA_self _ _ _
    have hu2 : getA st2 ("user:" ++ uuid) = some (RVal.hash uh2) :=
      getA_setA_self _ _ _
    have hu3 : getA st3 ("user:" ++ uuid) = some (RVal.hash uh3) :=
      getA_setA_self _ _ _
    have hms3 : getA uh2 "mission_stage" = some msS := by
      rw [huh2, getA_setA_ne _ _ _ _ (by decide), huh1,
        getA_setA_ne _ _ _ _ (by decide)]
      exact hms
    have hname3 : (getA uh3 "name").isSome = true := by
      rw [huh3, getA_setA_ne _ _ _ _ (by decide), huh2,
        getA_setA_ne _ _ _ _ (by decide), huh1,
        getA_setA_ne _ _ _ _ (by decide)]
      exact hname
    have hxp3 : getA uh3 "xp" = some xpS := by
      rw [huh3, getA_setA_ne _ _ _ _ (by decide), huh2,
        getA_setA_ne _ _ _ _ (by decide), huh1,
        getA_setA_ne _ _ _ _ (by decide)]
      exact hxp
    have hlb3 : getA st3 "leaderboard" = some (.zset lb)
        ∨ (getA st3 "leaderboard" = none ∧ lb = []) := by
      have h3 : getA st3 "leaderboard" = getA st "leaderboard" := by
        rw [hst3, getA_setA_ne _ _ _ _ (userKey_ne_lb uuid), hst2,
          getA_setA_ne _ _ _ _ (userKey_ne_lb uuid), hst1,
          getA_setA_ne _ _ _ _ (userKey_ne_lb uuid)]
      rw [h3]
      exact hlb
    have hul : updateLeaderboard st3 uuid 1000 = (stF, .ok ()) := by
      have := updateLeaderboard_existing st3 uuid uh3 xpS xpN lb 1000 hu3
        hname3 hxp3 hxpv hlb3
      rw [this]
    have hmain : promoteUser st uuid = (stF, .ok (true, some title)) := by
      unfold promoteUser
      rw [hmax1]
      dsimp only
      rw [hmax2]
      dsimp only
      rw [hg1]
      dsimp only
      rw [hcur]
      dsimp only
      rw [if_pos hlt, hrinfo]
      dsimp only
      rw [htitle, Option.getD_some]
      rw [hset1_of_hash huser]
      dsimp only
      rw [hset1_of_hash hu1]
      dsimp only
      rw [hincrby_of_int 1 hu2 hms3 hmsv]
      dsimp only
      rw [hul]
    refine ⟨stF, hmain, ?_, ?_, ?_, ?_, ?_⟩
    · have hgF : getA stF ("user:" ++ uuid) = some (RVal.hash uh4) := by
        rw [hstF, getA_setA_ne _ _ _ _ (Ne.symm (userKey_ne_lb uuid)), hst4]
        exact getA_setA_self _ _ _
      rw [hget_of_hash hgF, huh4, getA_setA_ne _ _ _ _ (by decide), huh3,
        getA_setA_ne _ _ _ _ (by decide), huh2,
        getA_setA_ne _ _ _ _ (by decide), huh1, getA_setA_self]
    · have hgF : getA stF ("user:" ++ uuid) = some (RVal.hash uh4) := by
        rw [hstF, getA_setA_ne _ _ _ _ (Ne.symm (userKey_ne_lb uuid)), hst4]
        exact getA_setA_self _ _ _
      rw [hget_of_hash hgF, huh4, getA_setA_ne _ _ _ _ (by decide), huh3,
        getA_setA_ne _ _ _ _ (by decide), huh2, getA_setA_self]
    · have hgF : getA stF ("user:" ++ uuid) = some (RVal.hash uh4) := by
        rw [hstF, getA_setA_ne _ _ _ _ (Ne.symm (userKey_ne_lb uuid)), hst4]
        exact getA_setA_self _ _ _
      rw [hget_of_hash hgF, huh4, getA_setA_ne _ _ _ _ (by decide), huh3,
        getA_setA_self]
    · have hgF : getA stF ("user:" ++ uuid) = some (RVal.hash uh4) := by
        rw [hstF, getA_setA_ne _ _ _ _ (Ne.symm (userKey_ne_lb uuid)), hst4]
        exact getA_setA_self _ _ _
      rw [hget_of_hash hgF, huh4, getA_setA_self]
    · rw [hstF]
      exact getA_setA_self _ _ _
  · intro hge mt hmt
    unfold promoteUser
    rw [hmax1]
    dsimp only
    rw [hmax2]
    dsimp only
    rw [hg1]
    dsimp only
    rw [hcur]
    dsimp only
    rw [if_neg hge, hmt]

/-- A store whose user `u1` sits at rank level 2, for the C7 witness. -/
def c7St : RStore :=
  match R.hsetMap initState "user:u1"
    [("name", "Alice"), ("rank", "Lieutenant"), ("rank_level", "2"),
      ("xp", "500"), ("mission_stage", "3"), ("current_location", "Bridge")] with
  | .ok s => s
  | .error _ => initState

theorem C7_promotion_ceiling_witness :
    ∃ st2, promoteUser c7St "u1" = (st2, .ok (true, some "Commander"))
      ∧ R.hget st2 "user:u1" "rank_level" = .ok (some (intRepr ((2 : Int) + 1)))
      ∧ R.hget st2 "user:u1" "rank" = .ok (some "Commander")
      ∧ R.hget st2 "user:u1" "mission_stage" = .ok (some (intRepr ((3 : Int) + 1)))
      ∧ R.hget st2 "user:u1" "xp" = .ok (some (intRepr ((500 : Int) + 1000)))
      ∧ getA st2 "leaderboard"
          = some (.zset (setA [] "u1" ((500 : Int) + 1000))) :=
  (C7_promotion_ceiling c7St "u1"
      [("name", "Alice"), ("rank", "Lieutenant"), ("rank_level", "2"),
        ("xp", "500"), ("mission_stage", "3"), ("current_location", "Bridge")]
      "5" "3" "500" 5 2 3 500 [("title", "Commander")] "Commander" []
      (by rfl) (by rfl) (by rfl) (by rfl) (by rfl) (by rfl) (by rfl) (by rfl)
      (by rfl) (by rfl) (by rfl) (Or.inr ⟨by rfl, rfl⟩)).1 (by decide)

end VH

/-! ### Claim C6 -/

namespace VH

theorem strAppend_assoc (a b c : String) : a ++ b ++ c = a ++ (b ++ c) := by
  apply strData_eq
  simp [String.data_append]

theorem semRawKey_eval (r m : Int) (loc t : String) :
    semRawKey t [("rank_level", PyVal.i r), ("mission_stage", PyVal.i m),
        ("current_location", PyVal.s loc)]
      = intRepr r ++ ("-" ++ (intRepr m ++ ("-"
          ++ (loc ++ (":" ++ pyStrip (pyLower t)))))) := by
  show intRepr r ++ "-" ++ intRepr m ++ "-" ++ loc ++ ":" ++ pyStrip (pyLower t)
      = _
  simp only [strAppend_assoc]

set_option maxHeartbeats 1000000 in
/-- C6 counterexample: the key is a SHA-256 digest of the raw context/text
string, and `rank_level` ranges over the integers, so by pigeonhole two
distinct rank levels must collide to the very same `sem_cache:` key for the
same text, mission stage and location — refuting "changing any single one
of the three context fields yields a different key". -/
theorem C6_counterexample :
    ∃ r1 r2 : Int, r1 ≠ r2 ∧
      generateSemanticKey "status"
          [("rank_level", PyVal.i r1), ("mission_stage", PyVal.i 1),
            ("current_location", PyVal.s "Bridge")]
        = generateSemanticKey "status"
          [("rank_level", PyVal.i r2), ("mission_stage", PyVal.i 1),
            ("current_location", PyVal.s "Bridge")] := by
  obtain ⟨r1, r2, hne, heq⟩ :=
    Finite.exists_ne_map_eq_of_infinite
      (fun r : Int =>
        (⟨sha256Nat (semRawKey "status"
            [("rank_level", PyVal.i r), ("mission_stage", PyVal.i 1),
              ("current_location", PyVal.s "Bridge")]),
          sha256Nat_lt _⟩ : Fin (2 ^ 256)))
  refine ⟨r1, r2, hne, ?_⟩
  have hdig : sha256Nat (semRawKey "status"
        [("rank_level", PyVal.i r1), ("mission_stage", PyVal.i 1),
          ("current_location", PyVal.s "Bridge")])
      = sha256Nat (semRawKey "status"
        [("rank_level", PyVal.i r2), ("mission_stage", PyVal.i 1),
          ("current_location", PyVal.s "Bridge")]) := congrArg Fin.val heq
  unfold generateSemanticKey
  rw [sha256Hex_congr hdig]

/-- C6 amended: the key is a pure function of the normalized text and the
three context fields — whenever two user-data dicts agree on `rank_level`,
`mission_stage` and `current_location`, the keys for the same text agree —
and before hashing the raw `rank-mission-location:text` string separates
any single-field change: distinct rank levels, distinct mission stages, or
distinct locations give distinct raw strings.  Distinct keys then hold
exactly up to SHA-256 collision of those raw strings. -/
theorem C6_semantic_key_amended :
    (∀ (t : String) (d1 d2 : List (String × PyVal)),
      getA d1 "rank_level" = getA d2 "rank_level" →
      getA d1 "mission_stage" = getA d2 "mission_stage" →
      getA d1 "current_location" = getA d2 "current_location" →
      generateSemanticKey t d1 = generateSemanticKey t d2)
    ∧ (∀ (t loc : String) (m r1 r2 : Int), r1 ≠ r2 →
        semRawKey t [("rank_level", PyVal.i r1), ("mission_stage", PyVal.i m),
            ("current_location", PyVal.s loc)]
          ≠ semRawKey t [("rank_level", PyVal.i r2),
              ("mission_stage", PyVal.i m), ("current_location", PyVal.s loc)])
    ∧ (∀ (t loc : String) (r m1 m2 : Int), m1 ≠ m2 →
        semRawKey t [("rank_level", PyVal.i r), ("mission_stage", PyVal.i m1),
            ("current_location", PyVal.s loc)]
          ≠ semRawKey t [("rank_level", PyVal.i r),
              ("mission_stage", PyVal.i m2), ("current_location", PyVal.s loc)])
    ∧ (∀ (t : String) (r m : Int) (l1 l2 : String), l1 ≠ l2 →
        semRawKey t [("rank_level", PyVal.i r), ("mission_stage", PyVal.i m),
            ("current_location", PyVal.s l1)]
          ≠ semRawKey t [("rank_level", PyVal.i r), ("mission_stage", PyVal.i m),
              ("current_location", PyVal.s l2)]) := by
  refine ⟨?_, ?_, ?_, ?_⟩
  · intro t d1 d2 h1 h2 h3
    unfold generateSemanticKey semRawKey
    rw [h1, h2, h3]
  · intro t loc m r1 r2 hne heq
    rw [semRawKey_eval, semRawKey_eval] at heq
    exact hne (intRepr_injective (strAppend_cancel_right heq))
  · intro t loc r m1 m2 hne heq
    rw [semRawKey_eval, semRawKey_eval] at heq
    have h2 := strAppend_cancel_left heq
    have h3 := strAppend_cancel_left h2
    exact hne (intRepr_injective (strAppend_cancel_right h3))
  · intro t r m l1 l2 hne heq
    rw [semRawKey_eval, semRawKey_eval] at heq
    have h2 := strAppend_cancel_left heq
    have h3 := strAppend_cancel_left h2
    have h4 := strAppend_cancel_left h3
    have h5 := strAppend_cancel_left h4
    exact hne (strAppend_cancel_right h5)

theorem C6_semantic_key_amended_witness :
    generateSemanticKey "Status"
        [("rank_level", PyVal.i 2), ("mission_stage", PyVal.i 3),
          ("current_location", PyVal.s "Bridge")]
      = generateSemanticKey "Status"
        [("current_location", PyVal.s "Bridge"), ("mission_stage", PyVal.i 3),
          ("rank_level", PyVal.i 2), ("xp", PyVal.i 99)]
    ∧ semRawKey "Status"
        [("rank_level", PyVal.i 2), ("mission_stage", PyVal.i 3),
          ("current_location", PyVal.s "Bridge")]
      ≠ semRawKey "Status"
        [("rank_level", PyVal.i 4), ("mission_stage", PyVal.i 3),
          ("current_location", PyVal.s "Bridge")] :=
  ⟨C6_semantic_key_amended.1 "Status" _ _ rfl rfl rfl,
    C6_semantic_key_amended.2.1 "Status" "Bridge" 3 2 4 (by decide)⟩

end VH


/-! ### Claim C4 -/

namespace VH

/-- A store with user `u1` registered at Cadet/rank 0, mission 1, Bridge. -/
def st0C4 : RStore :=
  match R.hsetMap initState "user:u1"
      [("name", "Alice"), ("rank", "Cadet"), ("rank_level", "0"), ("xp", "0"),
        ("mission_stage", "1"), ("current_location", "Bridge")] with
  | .ok s => s
  | .error _ => initState

/-- A model completion claiming mission success but carrying a
non-coercible update value, so `int("full")` raises after the promotion
already went through. -/
def rawC4 : String :=
  "\x7b\"mission_success\": true, \"updates\": \x7b\"shields\": \"full\"\x7d, \"response\": \"ok\"\x7d"

/-- C4 counterexample: a model answer with `mission_success: true` and the
non-integer update `shields: "full"` returns the fixed "data corruption"
narration, yet the request was NOT atomic: by the time `int("full")`
raises, the promotion has already run, so `rank_level` moved 0 → 1, `xp`
and the leaderboard moved to 1000, and `mission_stage` moved 1 → 2 — only
the cache write was skipped. -/
theorem C4_counterexample :
    (processCommandLogic ⟨"reroute power to the primary couplings", "u1"⟩
        ⟨false, .ok rawC4, 0, 4242⟩ st0C4).out
      = .ok (errToJson .valueErr)
    ∧ R.hget st0C4 "user:u1" "rank_level" = .ok (some "0")
    ∧ R.hget (processCommandLogic ⟨"reroute power to the primary couplings", "u1"⟩
        ⟨false, .ok rawC4, 0, 4242⟩ st0C4).st "user:u1" "rank_level"
      = .ok (some "1")
    ∧ R.hget (processCommandLogic ⟨"reroute power to the primary couplings", "u1"⟩
        ⟨false, .ok rawC4, 0, 4242⟩ st0C4).st "user:u1" "xp" = .ok (some "1000")
    ∧ R.hget (processCommandLogic ⟨"reroute power to the primary couplings", "u1"⟩
        ⟨false, .ok rawC4, 0, 4242⟩ st0C4).st "user:u1" "mission_stage"
      = .ok (some "2")
    ∧ getA (processCommandLogic ⟨"reroute power to the primary couplings", "u1"⟩
        ⟨false, .ok rawC4, 0, 4242⟩ st0C4).st "leaderboard"
      = some (.zset [("u1", 1000)])
    ∧ (processCommandLogic ⟨"reroute power to the primary couplings", "u1"⟩
        ⟨false, .ok rawC4, 0, 4242⟩ st0C4).eff.cacheWrites = 0 :=
  ⟨rfl, rfl, rfl, rfl, rfl, rfl, rfl⟩

/-- C4 amended: on the model path (radiation and location gates passed,
turbo miss, cache miss), a request timeout returns exactly the fixed
"processing delay" narration with one model call and the store untouched;
a network error likewise returns the fixed "sensors offline" narration
with the store untouched; a JSON/validation failure inside the
success-processing block returns the fixed "data corruption" narration
with no cache write — but only whatever state `applyModelData` had already
written survives, and the store provably stays untouched only when the
coercion error strikes before any write (no `mission_success: true`). -/
theorem C4_failure_handling_amended (req : Req) (env : Env) (st : RStore)
    (radS : Option String) (userData : List (String × PyVal))
    (h1 : R.hget st "ship:systems" "radiation_leak" = .ok radS)
    (h2 : orZeroInt radS = .ok 0)
    (h3 : getUserRankData st req.user_id = .ok userData)
    (h4 : findRestriction (pyLower req.text)
      ((getA userData "current_location").getD (.s "Bridge")) = none)
    (hT : processTurboMode st (pyLower req.text) req.user_id env.authCode
      = (st, .ok none))
    (hC : R.get st (generateSemanticKey req.text userData) = .ok none)
    (hM : ∃ md, R.hgetall st ("mission:"
      ++ pyValStr ((getA userData "mission_stage").getD (.i 1))) = .ok md)
    (hS : ∃ sd, getCurrentStatusDict st = .ok sd)
    (hmock : env.useMockLLM = false) :
    (env.outcome = .timeout →
      processCommandLogic req env st
        = ⟨st, { turboTried := true, cacheReads := 1, llmCalls := 1 },
            .ok (errToJson .timeoutExc)⟩)
    ∧ (env.outcome = .netError →
      processCommandLogic req env st
        = ⟨st, { turboTried := true, cacheReads := 1, llmCalls := 1 },
            .ok (errToJson .netExc)⟩)
    ∧ (∀ (raw : String) (st2 : RStore) (e : PyErr), env.outcome = .ok raw →
        applyModelData st req.user_id (generateSemanticKey req.text userData)
            (extractLlmData raw) = (st2, .error e) →
        processCommandLogic req env st
          = ⟨st2, { turboTried := true, cacheReads := 1, llmCalls := 1 },
              .ok (errToJson e)⟩)
    ∧ (∀ (data : Json) (uid key : String) (ukvs : List (String × Json))
          (e : PyErr),
        data.getKey "mission_success" = none →
        data.getKey "updates" = some (.jobj ukvs) →
        (Json.jobj ukvs).truthy = true →
        convUpdates ukvs = .error e →
        applyModelData st uid key data = (st, .error e)) := by
  obtain ⟨md, hM⟩ := hM
  obtain ⟨sd, hS⟩ := hS
  refine ⟨?_, ?_, ?_, ?_⟩
  · intro hout
    unfold processCommandLogic
    rw [h1]
    dsimp only
    rw [h2]
    dsimp only
    rw [if_neg (fun hh => hh rfl)]
    rw [h3]
    dsimp only
    rw [h4]
    dsimp only
    rw [hT]
    dsimp only
    rw [hC]
    dsimp only [Option.bind]
    rw [hM]
    dsimp only
    rw [hS]
    dsimp only
    rw [hmock]
    simp only [Bool.false_eq_true, if_false]
    rw [hout]
  · intro hout
    unfold processCommandLogic
    rw [h1]
    dsimp only
    rw [h2]
    dsimp only
    rw [if_neg (fun hh => hh rfl)]
    rw [h3]
    dsimp only
    rw [h4]
    dsimp only
    rw [hT]
    dsimp only
    rw [hC]
    dsimp only [Option.bind]
    rw [hM]
    dsimp only
    rw [hS]
    dsimp only
    rw [hmock]
    simp only [Bool.false_eq_true, if_false]
    rw [hout]
  · intro raw st2 e hout happ
    unfold processCommandLogic
    rw [h1]
    dsimp only
    rw [h2]
    dsimp only
    rw [if_neg (fun hh => hh rfl)]
    rw [h3]
    dsimp only
    rw [h4]
    dsimp only
    rw [hT]
    dsimp only
    rw [hC]
    dsimp only [Option.bind]
    rw [hM]
    dsimp only
    rw [hS]
    dsimp only
    rw [hmock]
    simp only [Bool.false_eq_true, if_false]
    rw [hout]
    dsimp only
    rw [happ]
  · intro data uid key ukvs e hms hup htr hconv
    unfold applyModelData
    rw [hms]
    dsimp only
    rw [hup]
    dsimp only
    rw [if_pos htr]
    rw [hconv]

theorem C4_failure_handling_amended_witness :
    processCommandLogic ⟨"reroute power to the primary couplings", "u1"⟩
        ⟨false, .timeout, 0, 4242⟩ initState
      = ⟨initState, { turboTried := true, cacheReads := 1, llmCalls := 1 },
          .ok (errToJson .timeoutExc)⟩ :=
  (C4_failure_handling_amended ⟨"reroute power to the primary couplings", "u1"⟩
      ⟨false, .timeout, 0, 4242⟩ initState (some "0")
      [("rank_level", .i 0), ("title", .s "Cadet"), ("mission_stage", .i 1),
        ("current_location", .s "Bridge")]
      rfl rfl rfl (by decide) rfl rfl ⟨_, rfl⟩ ⟨_, rfl⟩ rfl).1 rfl

end VH
